import Mathlib

/-!
# AuthService (sensateservice): the authorization pipeline

A shallow embedding of `MessageConsumer` (validation and the per-shard walk),
`MessageService` (ingress, tick, reload) and `to_protobuf`, followed by the
properties proved about them.

Conventions of the embedding.

* A C++ call that can leave by an exception returns an `Option`; `none` is the
  exception travelling to the caller.
* Machine integers are naturals reduced modulo their width where the source
  can reach the bound (`std::size_t`, `unsigned int`, `std::uint8_t`).
* `std::string` is `String`, one character per byte; `std::vector` is `List`.
* Collaborators whose sources are not part of the seven files (the regular
  expression engine, the digest, the broker client, the repositories, the
  command consumer) are fields of an environment record.
-/

namespace AuthService

/-! ## Data model -/

/-- Modelled from the spec: `models::ObjectId` (header absent), "opaque 12-byte
identifier for a sensor; totally ordered by lexicographic byte comparison of
its canonical hex form". The natural number is the big-endian value of the
twelve bytes, so `<` on it is that comparison. -/
abbrev ObjectId := Nat

/-- Modelled from the spec: `Uuid`, "128-bit identifier for a user". -/
abbrev Uuid := Nat

/-- Instants of `std::chrono::high_resolution_clock`, counted in nanoseconds. -/
abbrev TimePoint := Nat

/-- Modelled from the spec: `models::Sensor` (header absent),
"{ id: ObjectId, ownerId: Uuid, secret: string }". -/
structure Sensor where
  m_id : ObjectId
  m_owner : Uuid
  m_secret : String
  deriving DecidableEq, Repr

/-- Modelled from the spec: `models::User` (header absent),
"{ id: Uuid, banned: bool, billingLockout: bool }". -/
structure User where
  m_id : Uuid
  m_banned : Bool
  m_lockout : Bool
  deriving DecidableEq, Repr

/-- Modelled from the spec: `models::ApiKey` (header absent),
"{ key: string, revoked: bool }". -/
structure ApiKey where
  m_key : String
  m_revoked : Bool
  deriving DecidableEq, Repr

/-- The class `models::Message` of `message.h`: its three private members. -/
structure Message where
  m_secret : String
  m_data : String
  m_sensorId : ObjectId
  deriving DecidableEq, Repr

/-- The element type of a message shard buffer: the raw payload as received
and the model parsed from it (`MessagePair` in `messageconsumer.cpp`). -/
abbrev MessagePair := String × Message

/-- The result of a cache lookup, `std::pair<bool, std::optional<Sensor>>`
(`SensorLookupType` in `messageconsumer.cpp`). -/
abbrev SensorLookupType := Bool × Option Sensor

/-! ## DataCache -/

/-- Modelled from the spec: `CacheEntry<T>`,
"{ value: T, insertedAt: Instant, ttl: Duration }". -/
structure CacheEntry (α : Type) where
  value : α
  insertedAt : TimePoint
  ttl : Nat
  deriving DecidableEq, Repr

/-- Modelled from the spec: the age test of a cache entry, "now − insertedAt <
ttl". -/
def CacheEntry.live {α : Type} (e : CacheEntry α) (now : TimePoint) : Bool :=
  decide (now - e.insertedAt < e.ttl)

/-- Modelled from the spec: `data::DataCache` (source absent), "three maps:
sensors keyed by ObjectId, users keyed by Uuid, keys keyed by string". Each map
is an association list searched by the key of the stored value, the first hit
being the binding. -/
structure DataCache where
  m_sensors : List (CacheEntry Sensor)
  m_users : List (CacheEntry User)
  m_keys : List (CacheEntry ApiKey)
  deriving DecidableEq, Repr

/-- Modelled from the spec: `DataCache::GetSensor` (source absent), §4.1:
"(1) sensor map lookup; if absent return (false, none). (2) TTL check on the
sensor entry; if expired return (false, none). (3) Lookup the sensor's ownerId
in users; absent/expired → (false, none); present and banned/locked →
(true, none). (4) Lookup one of the sensor's api-keys; revoked → (true, none).
(5) Otherwise (true, some(sensor))". The key consulted in step (4) is the one
stored under the sensor's secret, and an absent or expired key is treated as
an absent user is (invariant 1 of §3 forbids returning the sensor then). -/
def DataCache.GetSensor (cache : DataCache) (id : ObjectId) (now : TimePoint) :
    SensorLookupType :=
  match cache.m_sensors.find? (fun e => e.value.m_id == id) with
  | none => (false, none)
  | some se =>
    if !se.live now then (false, none)
    else
      match cache.m_users.find? (fun e => e.value.m_id == se.value.m_owner) with
      | none => (false, none)
      | some ue =>
        if !ue.live now then (false, none)
        else if ue.value.m_banned || ue.value.m_lockout then (true, none)
        else
          match cache.m_keys.find? (fun e => e.value.m_key == se.value.m_secret) with
          | none => (false, none)
          | some ke =>
            if !ke.live now then (false, none)
            else if ke.value.m_revoked then (true, none)
            else (true, some se.value)

/-! ## MessageConsumer -/

/-- The modulus of `std::size_t` arithmetic (a 64-bit target). -/
def SIZE_MODULUS : Nat := 2 ^ 64

/-- The member function `std::string::substr(pos, n)`: it throws
`std::out_of_range` when `pos` exceeds the length and otherwise returns the
`min(n, size − pos)` characters that start at `pos`. -/
def substr (s : String) (pos n : Nat) : Option String :=
  if pos > s.length then none else some (String.mk ((s.data.drop pos).take n))

/-- What `MessageConsumer` uses and the seven source files do not define: the
members and constants of `AbstractConsumer`, the two library calls, and the
broker client.

* `Replace str rewrite` is `RE2::Replace(&str, m_regex, rewrite)` for the
  precompiled sentinel expression `m_regex`: `none` when the call returns
  false (no occurrence), and the rewritten string when it returns true.
* `sha256` is the lower-case hexadecimal SHA-256 digest of `util/sha256.h`.
* `SecretSubStringOffset` and `SecretSubstringStart` are the two constants of
  that name.
* `BulkMessageTopic` is `m_config.GetMqtt().GetPrivateBroker()
  .GetBulkMessageTopic()`.
* `accepts topic batch` tells whether the broker client takes the publish;
  when it does not, `PublishAuthorizedMessages` leaves by an exception. -/
structure ConsumerEnv where
  Replace : String → String → Option String
  sha256 : String → String
  SecretSubStringOffset : Nat
  SecretSubstringStart : Nat
  BulkMessageTopic : String
  accepts : String → List Message → Bool

/-- Modelled from the spec: `HashCompare` (declared in the absent
`abstractconsumer.h`), §4.4 step 3: "Compute SHA-256 of the canonical string;
compare hex digest to the claimed digest". -/
def HashCompare (env : ConsumerEnv) (data key : String) : Bool :=
  decide (env.sha256 data = key)

/-- The method `MessageConsumer::ValidateMessage` (`messageconsumer.cpp`, lines
91–103). `offset` is computed in `std::size_t`, so a secret shorter than
`SecretSubStringOffset` wraps around; `substr` may throw. -/
def ValidateMessage (env : ConsumerEnv) (sensor : Sensor) (pair : MessagePair) :
    Option Bool :=
  match env.Replace pair.1 sensor.m_secret with
  | some canonical =>
    let offset := (pair.2.m_secret.length + SIZE_MODULUS
      - env.SecretSubStringOffset % SIZE_MODULUS) % SIZE_MODULUS
    match substr pair.2.m_secret env.SecretSubstringStart offset with
    | none => none
    | some key => some (HashCompare env canonical key)
  | none =>
    /- This is not a SHA256 secured message. Authorize manually. -/
    some (decide (pair.2.m_secret = sensor.m_secret))

/-- A message shard consumer: the buffer `m_messages` of `AbstractConsumer`. -/
structure MessageConsumer where
  m_messages : List MessagePair
  deriving DecidableEq, Repr

/-- The comparator handed to `std::sort` in `MessageConsumer::Process`:
`x.second.GetObjectId().compare(y.second.GetObjectId()) < 0`. -/
def sortLess (x y : MessagePair) : Bool :=
  decide (x.2.m_sensorId < y.2.m_sensorId)

/-- Two entries are in order when the second does not sort before the first. -/
def inOrder (x y : MessagePair) : Prop :=
  sortLess y x = false

instance inOrderDecidable : DecidableRel inOrder :=
  fun x y => inferInstanceAs (Decidable (sortLess y x = false))

/-- The call `std::sort(begin(data), end(data), sortLess)`. The standard only
fixes that the result is a rearrangement with no pair out of order; this is
the rearrangement that inserts each element before the first one it does not
follow, so entries of one sensor keep their arrival order. -/
def sortBySensorId (data : List MessagePair) : List MessagePair :=
  List.insertionSort inOrder data

/-- The test at the head of the loop body of `MessageConsumer::Process`:
the cache is consulted when no sensor value is held or the held sensor's id
differs from the entry's, and the held pair is kept otherwise. -/
def refreshSensor (lookup : ObjectId → SensorLookupType) (sensor : SensorLookupType)
    (id : ObjectId) : SensorLookupType :=
  match sensor.2 with
  | none => lookup id
  | some held => if held.m_id ≠ id then lookup id else sensor

/-- The `for` loop of `MessageConsumer::Process` (lines 60–80): `sensor` is the
pair carried from one entry to the next, the result is the vector
`authorized`, and `none` is an exception thrown by `ValidateMessage`. -/
def MessageConsumer.walk (env : ConsumerEnv) (lookup : ObjectId → SensorLookupType) :
    SensorLookupType → List MessagePair → Option (List Message)
  | _, [] => some []
  | sensor, pair :: rest =>
    let sensor := refreshSensor lookup sensor pair.2.m_sensorId
    if !sensor.1 then MessageConsumer.walk env lookup sensor rest
    else
      match sensor.2 with
      | none => MessageConsumer.walk env lookup sensor rest
      | some s =>
        match ValidateMessage env s pair with
        | none => none
        | some false => MessageConsumer.walk env lookup sensor rest
        | some true =>
          (MessageConsumer.walk env lookup sensor rest).map (fun tail => pair.2 :: tail)

/-- What one call of `MessageConsumer::Process` leaves behind: the consumer
with its buffer, the batches handed to and taken by the broker (topic and
content), and the returned count (`none`: the call left by an exception). -/
structure ProcessOutcome where
  consumer : MessageConsumer
  published : List (String × List Message)
  result : Option Nat
  deriving DecidableEq, Repr

/-- The method `MessageConsumer::Process` (lines 40–89) at clock reading `now`.
The buffer is swapped out and cleared before anything else; the drained
entries are sorted and walked; a non-empty `authorized` is published once. -/
def MessageConsumer.Process (env : ConsumerEnv) (cache : DataCache) (now : TimePoint)
    (self : MessageConsumer) : ProcessOutcome :=
  let data := sortBySensorId self.m_messages
  match MessageConsumer.walk env (fun id => cache.GetSensor id now) (false, none) data with
  | none => { consumer := { m_messages := [] }, published := [], result := none }
  | some authorized =>
    if authorized.isEmpty then
      { consumer := { m_messages := [] }, published := [], result := some 0 }
    else if env.accepts env.BulkMessageTopic authorized then
      { consumer := { m_messages := [] }
        published := [(env.BulkMessageTopic, authorized)]
        result := some authorized.length }
    else
      { consumer := { m_messages := [] }, published := [], result := none }

/-- The lookup of an entry's sensor gives nothing to validate against: it is
`(false, _)` (unknown or expired sensor) or `(true, none)` (banned or locked
user, revoked key). -/
def unusable (r : SensorLookupType) : Bool :=
  !r.1 || r.2.isNone

/-- The entry's sensor lookup is `(true, some sensor)` and the entry passes
`ValidateMessage` against that sensor. -/
def passes (env : ConsumerEnv) (lookup : ObjectId → SensorLookupType) (pair : MessagePair) :
    Bool :=
  match lookup pair.2.m_sensorId with
  | (true, some s) => ValidateMessage env s pair == some true
  | _ => false

/-- The entry's sensor lookup is `(true, some sensor)` and `ValidateMessage`
against that sensor throws. -/
def raises (env : ConsumerEnv) (lookup : ObjectId → SensorLookupType) (pair : MessagePair) :
    Bool :=
  match lookup pair.2.m_sensorId with
  | (true, some s) => ValidateMessage env s pair == none
  | _ => false

/-- The messages of the sorted entries that pass, in sorted order: what the
walk collects in `authorized` when no validation throws. -/
def authorizedBatch (env : ConsumerEnv) (cache : DataCache) (now : TimePoint)
    (buffer : List MessagePair) : List Message :=
  ((sortBySensorId buffer).filter (passes env (fun id => cache.GetSensor id now))).map Prod.snd

/-! ## SHA-256 and the sentinel of the spec's scenario 3

The digest and the regular expression are fields of `ConsumerEnv`; the
definitions below give the instance the spec describes, used where a property
is evaluated on a concrete payload. -/

/-- The right rotation of a 32-bit word. -/
def rotr32 (x n : Nat) : Nat :=
  ((x >>> n) ||| (x <<< (32 - n))) % 2 ^ 32

/-- The sixty-four round constants of SHA-256: the first 32 bits of the
fractional parts of the cube roots of the first sixty-four primes. -/
def sha256K : List Nat :=
  [1116352408, 1899447441, 3049323471, 3921009573, 961987163, 1508970993,
   2453635748, 2870763221, 3624381080, 310598401, 607225278, 1426881987,
   1925078388, 2162078206, 2614888103, 3248222580, 3835390401, 4022224774,
   264347078, 604807628, 770255983, 1249150122, 1555081692, 1996064986,
   2554220882, 2821834349, 2952996808, 3210313671, 3336571891, 3584528711,
   113926993, 338241895, 666307205, 773529912, 1294757372, 1396182291,
   1695183700, 1986661051, 2177026350, 2456956037, 2730485921, 2820302411,
   3259730800, 3345764771, 3516065817, 3600352804, 4094571909, 275423344,
   430227734, 506948616, 659060556, 883997877, 958139571, 1322822218,
   1537002063, 1747873779, 1955562222, 2024104815, 2227730452, 2361852424,
   2428436474, 2756734187, 3204031479, 3329325298]

/-- The eight working variables of SHA-256. -/
structure Sha256State where
  a : Nat
  b : Nat
  c : Nat
  d : Nat
  e : Nat
  f : Nat
  g : Nat
  h : Nat

/-- The initial hash value of SHA-256: the first 32 bits of the fractional
parts of the square roots of the first eight primes. -/
def sha256Init : Sha256State :=
  ⟨1779033703, 3144134277, 1013904242, 2773480762,
   1359893119, 2600822924, 528734635, 1541459225⟩

/-- One of the sixty-four rounds of the compression function. -/
def sha256Round (s : Sha256State) (kw : Nat × Nat) : Sha256State :=
  let s1 := rotr32 s.e 6 ^^^ rotr32 s.e 11 ^^^ rotr32 s.e 25
  let ch := (s.e &&& s.f) ^^^ ((s.e ^^^ 0xffffffff) &&& s.g)
  let t1 := (s.h + s1 + ch + kw.1 + kw.2) % 2 ^ 32
  let s0 := rotr32 s.a 2 ^^^ rotr32 s.a 13 ^^^ rotr32 s.a 22
  let maj := (s.a &&& s.b) ^^^ (s.a &&& s.c) ^^^ (s.b &&& s.c)
  let t2 := (s0 + maj) % 2 ^ 32
  ⟨(t1 + t2) % 2 ^ 32, s.a, s.b, s.c, (s.d + t1) % 2 ^ 32, s.e, s.f, s.g⟩

/-- The message schedule: `n` further words appended to the words so far. -/
def sha256Extend : Nat → List Nat → List Nat
  | 0, w => w
  | n + 1, w =>
    let t := w.length
    let w15 := w.getD (t - 15) 0
    let w2 := w.getD (t - 2) 0
    let s0 := rotr32 w15 7 ^^^ rotr32 w15 18 ^^^ (w15 >>> 3)
    let s1 := rotr32 w2 17 ^^^ rotr32 w2 19 ^^^ (w2 >>> 10)
    sha256Extend n (w ++ [(w.getD (t - 16) 0 + s0 + w.getD (t - 7) 0 + s1) % 2 ^ 32])

/-- Big-endian words of a byte sequence, four bytes to a word. -/
def sha256Words : List Nat → List Nat
  | b0 :: b1 :: b2 :: b3 :: rest =>
    (b0 * 2 ^ 24 + b1 * 2 ^ 16 + b2 * 2 ^ 8 + b3) :: sha256Words rest
  | _ => []

/-- The compression of one sixteen-word block into the running hash. -/
def sha256Block (s : Sha256State) (block : List Nat) : Sha256State :=
  let t := (sha256K.zip (sha256Extend 48 block)).foldl sha256Round s
  ⟨(s.a + t.a) % 2 ^ 32, (s.b + t.b) % 2 ^ 32, (s.c + t.c) % 2 ^ 32, (s.d + t.d) % 2 ^ 32,
   (s.e + t.e) % 2 ^ 32, (s.f + t.f) % 2 ^ 32, (s.g + t.g) % 2 ^ 32, (s.h + t.h) % 2 ^ 32⟩

/-- The hash of a padded message, `n` blocks of sixteen words. -/
def sha256Blocks : Nat → Sha256State → List Nat → Sha256State
  | 0, s, _ => s
  | n + 1, s, ws => sha256Blocks n (sha256Block s (ws.take 16)) (ws.drop 16)

/-- The padding of SHA-256: a one bit, zeros, and the bit length in 64 bits. -/
def sha256Pad (msg : List Nat) : List Nat :=
  let l := msg.length
  msg ++ [0x80] ++ List.replicate ((119 - l % 64) % 64) 0
    ++ (List.range 8).map (fun i => (8 * l) / 2 ^ (8 * (7 - i)) % 256)

/-- Eight lower-case hexadecimal digits of a 32-bit word. -/
def hexWord (w : Nat) : List Char :=
  (List.range 8).map (fun i => Nat.digitChar (w / 16 ^ (7 - i) % 16))

/-- Modelled from the spec: the digest of `util/sha256.h` (absent), "SHA-256 …
hex digest": FIPS 180-4 over the bytes of the string, printed as sixty-four
lower-case hexadecimal digits. -/
def sha256hex (s : String) : String :=
  let padded := sha256Pad (s.data.map (fun c => c.toNat % 256))
  let r := sha256Blocks (padded.length / 64) sha256Init (sha256Words padded)
  String.mk ([r.a, r.b, r.c, r.d, r.e, r.f, r.g, r.h].flatMap hexWord)

/-- Lower-case hexadecimal digits, the alphabet of the digest. -/
def isLowerHex (c : Char) : Bool :=
  (48 ≤ c.toNat && c.toNat ≤ 57) || (97 ≤ c.toNat && c.toNat ≤ 102)

/-- Whether the characters start with a sentinel: "$==", sixty-four digest
digits, "==". -/
def sentinelAt (cs : List Char) : Bool :=
  cs.take 3 == ['$', '=', '='] && ((cs.drop 3).take 64).length == 64
    && ((cs.drop 3).take 64).all isLowerHex && (cs.drop 67).take 2 == ['=', '=']

/-- The first sentinel of the text replaced by `rewrite`; `none` without one. -/
def sentinelReplace : List Char → List Char → Option (List Char)
  | [], _ => none
  | c :: cs, rewrite =>
    if sentinelAt (c :: cs) then some (rewrite ++ (c :: cs).drop 69)
    else (sentinelReplace cs rewrite).map (fun tail => c :: tail)

/-- Modelled from the spec: the environment of §8 scenario 3 (the constants,
expression and digest live in the absent `abstractconsumer.h`): the secret
field of a digest-signed payload is "$==" + d + "==", so the digest starts at
3 and the wrapper takes 5 characters; the broker takes every publish. -/
def scenarioEnv : ConsumerEnv where
  Replace := fun str rewrite => (sentinelReplace str.data rewrite.data).map String.mk
  sha256 := sha256hex
  SecretSubStringOffset := 5
  SecretSubstringStart := 3
  BulkMessageTopic := "internal/bulk/messages"
  accepts := fun _ _ => true

/-- The environment of scenario 3 with a broker that refuses every publish. -/
def refusingEnv : ConsumerEnv :=
  { scenarioEnv with accepts := fun _ _ => false }

/-! ## Measurements and `to_protobuf` -/

/-- A C++ `double`, carried as its 64-bit pattern: the code below only copies
such values. -/
abbrev Double := Nat

/-- Modelled from the spec: a datapoint of `models::Measurement` (header
absent), "(value, unit, optional accuracy, optional precision)"; the member
names are those `to_protobuf` reads. -/
structure DataPoint where
  m_value : Double
  m_unit : String
  m_accuracy : Option Double
  m_precision : Option Double
  deriving DecidableEq, Repr

/-- Modelled from the spec: `models::Measurement` (header absent), "{ sensorId:
ObjectId, secret: string, data }" with "a decoded geographic coordinate, a
timestamp, and a list of datapoints"; `GetCoordinates()` is the pair
`m_coordinates`, `GetCreatedTimestamp()` is `m_createdAt`. -/
structure Measurement where
  m_sensorId : ObjectId
  m_secret : String
  m_data : List DataPoint
  m_coordinates : Double × Double
  m_createdAt : String
  deriving DecidableEq, Repr

/-- The element type of a measurement shard buffer. -/
abbrev MeasurementPair := String × Measurement

/-- Modelled from the spec: the datapoint record of the generated
`measurement.pb.h` (absent), "{value:double, unit:string, accuracy?:double,
precision?:double}"; an optional field that was never set is `none`. -/
structure ProtoDataPoint where
  value : Double
  unit : String
  accuracy : Option Double
  precision : Option Double
  deriving DecidableEq, Repr

/-- Modelled from the spec: the `Measurement` record of `measurement.pb.h`
(absent), "{ datapoints, latitude:double, longitude:double, timestamp:string,
platformtime:string }". -/
structure ProtoMeasurement where
  datapoints : List ProtoDataPoint
  latitude : Double
  longitude : Double
  timestamp : String
  platformtime : String
  deriving DecidableEq, Repr

/-- Modelled from the spec: the container `MeasurementData` of
`measurement.pb.h` (absent), "repeated Measurement records". -/
structure MeasurementData where
  measurements : List ProtoMeasurement
  deriving DecidableEq, Repr

/-- The body of the inner loop of `to_protobuf` (`protobuf.cpp`, lines 36–49):
a fresh datapoint, then the four setters in source order. Both optional
members are written with `set_accuracy`. -/
def add_datapoint (dp : DataPoint) : ProtoDataPoint :=
  let datapoint : ProtoDataPoint := { value := 0, unit := "", accuracy := none, precision := none }
  let datapoint := { datapoint with value := dp.m_value }
  let datapoint := { datapoint with unit := dp.m_unit }
  let datapoint :=
    match dp.m_accuracy with
    | some accuracy => { datapoint with accuracy := some accuracy }
    | none => datapoint
  let datapoint :=
    match dp.m_precision with
    | some precision => { datapoint with accuracy := some precision }
    | none => datapoint
  datapoint

/-- The body of the outer loop of `to_protobuf` (lines 33–60) for one entry;
`now` is the value of `util::GetIsoTimestamp()` taken before the loop. -/
def add_measurement (now : String) (entry : Measurement) : ProtoMeasurement :=
  { datapoints := entry.m_data.map add_datapoint
    latitude := entry.m_coordinates.1
    longitude := entry.m_coordinates.2
    platformtime := now
    timestamp := if entry.m_createdAt.isEmpty then now else entry.m_createdAt }

/-- The container that `to_protobuf` fills (lines 29–61): one
`add_measurements()` per element of the range, in iteration order. -/
def buildMeasurementData (now : String) (value : List Measurement) : MeasurementData :=
  { measurements := value.map (add_measurement now) }

/-- The largest `int`, `std::numeric_limits<int>::max()`. -/
def INT_MAX : Nat := 2 ^ 31 - 1

/-- The function `to_protobuf` (lines 19–71). `serialize` is the wire encoding
of the protobuf runtime (`SerializeToArray`, whose length is `ByteSizeLong`);
an encoding longer than `INT_MAX` bytes makes the function throw
`std::out_of_range`. -/
def to_protobuf (serialize : MeasurementData → List Nat) (now : String)
    (value : List Measurement) : Option (List Nat) :=
  let data := buildMeasurementData now value
  let bytes := serialize data
  if bytes.length > INT_MAX then none else some bytes

/-- The outbound datapoint as the spec's note on the serialization path words
it: the accuracy field is the precision when a precision is present,
otherwise the accuracy when one is present, otherwise unset; the precision
field is not set; value and unit are copied. -/
def claimedDatapoint (dp : DataPoint) : ProtoDataPoint :=
  { value := dp.m_value
    unit := dp.m_unit
    accuracy :=
      match dp.m_precision, dp.m_accuracy with
      | some precision, _ => some precision
      | none, some accuracy => some accuracy
      | none, none => none
    precision := none }

/-! ## MessageService -/

/-- A measurement shard consumer: the buffer `m_messages` of
`AbstractConsumer`. -/
structure MeasurementConsumer where
  m_messages : List MeasurementPair
  deriving DecidableEq, Repr

/-- Modelled from the spec: `AbstractConsumer::PushMessage` (source absent),
"append to the shard's buffer under the shard mutex". -/
def MessageConsumer.PushMessage (self : MessageConsumer) (pair : MessagePair) :
    MessageConsumer :=
  { m_messages := self.m_messages ++ [pair] }

/-- Modelled from the spec: `AbstractConsumer::PushMessages` (source absent),
"append to the shard's buffer under the shard mutex", for a vector. -/
def MessageConsumer.PushMessages (self : MessageConsumer) (pairs : List MessagePair) :
    MessageConsumer :=
  { m_messages := self.m_messages ++ pairs }

/-- Modelled from the spec: `AbstractConsumer::PushMessage` (source absent) of
the measurement consumer, "append to the shard's buffer". -/
def MeasurementConsumer.PushMessage (self : MeasurementConsumer) (pair : MeasurementPair) :
    MeasurementConsumer :=
  { m_messages := self.m_messages ++ [pair] }

/-- Modelled from the spec: `AbstractConsumer::PushMessages` (source absent) of
the measurement consumer, "append to the shard's buffer", for a vector. -/
def MeasurementConsumer.PushMessages (self : MeasurementConsumer)
    (pairs : List MeasurementPair) : MeasurementConsumer :=
  { m_messages := self.m_messages ++ pairs }

/-- Modelled from the spec: `DataCache::Append` (source absent), "bulk upsert;
existing entries are replaced and their insertedAt reset", for one of the
three maps: `key` is the key of a value, `now` the instant of the call and
`ttl` the timeout the cache was constructed with. -/
def upsert {α κ : Type} [DecidableEq κ] (key : α → κ) (now : TimePoint) (ttl : Nat)
    (entries : List (CacheEntry α)) (values : List α) : List (CacheEntry α) :=
  values.foldl
    (fun acc v =>
      acc.filter (fun e => decide (key e.value ≠ key v)) ++
        [{ value := v, insertedAt := now, ttl := ttl }])
    entries

/-- The lines that `MessageService` writes to the log. -/
inductive LogLine where
  | reloadingCaches
  | processing (count : Nat)
  | authorized (count : Nat)
  | unableToPublish
  | processingTook (ms : Nat)
  deriving DecidableEq, Repr

/-- What a tick does that is visible outside the service, in order: log lines,
the three bulk fetches of `LoadAll` (`GetAllSensors`, `GetAllUsers`,
`GetAllSensorKeys`), the cache sweep, the drain of the command consumer, the
calls of the shard consumers' `Process`, and the batches the broker took. The
drain is one event; the repository calls made inside it are listed apart, in
the part `targeted` of a tick's outcome. -/
inductive Event where
  | Log (line : LogLine)
  | GetAllSensors
  | GetAllUsers
  | GetAllSensorKeys
  | CleanupFor (budget : Nat)
  | Execute
  | MessageProcess (shard : Nat)
  | MeasurementProcess (shard : Nat)
  | PublishMessages (topic : String) (batch : List Message)
  | PublishMeasurements (topic : String) (batch : List Measurement)
  deriving DecidableEq, Repr

/-- A repository call made for one command of the drain: `GetUserById`,
`GetSensorById` or `GetSensorKey`, with its argument. -/
inductive TargetedFetch where
  | GetUserById (id : Uuid)
  | GetSensorById (id : ObjectId)
  | GetSensorKey (key : String)
  deriving DecidableEq, Repr

/-- Modelled from the spec: the commands of `CommandConsumer` (source absent),
§4.5: "Commands: FlushUser(id), FlushSensor(id), FlushKey(k), AddUser(id),
AddSensor(id), AddKey(k)". A command carries the id its text parses to: a
text that `lexical_cast` or the constructor of `ObjectId` refuses, and a
targeted fetch that throws, are not modelled. -/
inductive Command where
  | FlushUser (id : Uuid)
  | FlushSensor (id : ObjectId)
  | FlushKey (key : String)
  | AddUser (id : Uuid)
  | AddSensor (id : ObjectId)
  | AddKey (key : String)
  deriving DecidableEq, Repr

/-- What `MessageService` uses during one tick and the seven source files do
not define.

* `consumer` is the environment of the message consumers.
* `now` is the reading of `high_resolution_clock` in the tick.
* `GetAllSensors`, `GetAllUsers`, `GetAllSensorKeys` are the results of the
  three repository calls, `none` when the call fails with an exception.
* `CleanupFor budget` is `DataCache::CleanupFor`.
* `commands` is the queue that `CommandConsumer::Execute` drains in the tick.
* `GetUserById`, `GetSensorById`, `GetSensorKey` are the targeted fetches of
  the three repositories, a `std::optional` each.
* `authorizeMeasurements cache now data` is the sort, walk and validation of
  the measurement consumer (`measurementconsumer.cpp` is absent): the
  authorized measurements, or `none` for an exception.
* `BulkMeasurementTopic` and `acceptsMeasurements` are the topic and the
  broker's answer for the measurement publish.
* `elapsed` is the duration of the busy part of the tick in milliseconds. -/
structure TickEnv where
  consumer : ConsumerEnv
  now : TimePoint
  GetAllSensors : Option (List Sensor)
  GetAllUsers : Option (List User)
  GetAllSensorKeys : Option (List ApiKey)
  CleanupFor : Nat → DataCache → DataCache
  commands : List Command
  GetUserById : Uuid → Option User
  GetSensorById : ObjectId → Option Sensor
  GetSensorKey : String → Option ApiKey
  authorizeMeasurements : DataCache → TimePoint → List MeasurementPair → Option (List Measurement)
  BulkMeasurementTopic : String
  acceptsMeasurements : String → List Measurement → Bool
  elapsed : Nat

/-- The outcome of one call of the measurement consumer's `Process`. -/
structure MeasurementOutcome where
  consumer : MeasurementConsumer
  published : List (String × List Measurement)
  result : Option Nat
  deriving DecidableEq, Repr

/-- Modelled from the spec: `MeasurementConsumer::Process` (source absent),
§4.3: "atomically swap the shard buffer out", sort, walk, validate, "Publish
the authorized vector to the private broker's bulk topic as a single batched
payload", "Return the count of authorized items"; same shape as
`MessageConsumer::Process`, the validation being `env.authorizeMeasurements`. -/
def MeasurementConsumer.Process (env : TickEnv) (cache : DataCache)
    (self : MeasurementConsumer) : MeasurementOutcome :=
  match env.authorizeMeasurements cache env.now self.m_messages with
  | none => { consumer := { m_messages := [] }, published := [], result := none }
  | some authorized =>
    if authorized.isEmpty then
      { consumer := { m_messages := [] }, published := [], result := some 0 }
    else if env.acceptsMeasurements env.BulkMeasurementTopic authorized then
      { consumer := { m_messages := [] }
        published := [(env.BulkMeasurementTopic, authorized)]
        result := some authorized.length }
    else
      { consumer := { m_messages := [] }, published := [], result := none }

/-- The modulus of `std::uint8_t`, the type of the two shard counters. -/
def UINT8_MODULUS : Nat := 2 ^ 8

/-- The modulus of `unsigned int`, the type of the pending-work counter. -/
def UINT_MODULUS : Nat := 2 ^ 32

/-- The largest `unsigned int`, `std::numeric_limits<unsigned int>::max()`. -/
def UINT_MAX : Nat := 2 ^ 32 - 1

/-- The constant `MessageService::ReloadTimeout`, `std::chrono::minutes(5)`, in
nanoseconds. -/
def ReloadTimeout : Nat := 5 * 60 * 1000000000

/-- The constant `MessageService::CacheTimeout`, `std::chrono::minutes(6)`, in
nanoseconds. -/
def CacheTimeout : Nat := 6 * 60 * 1000000000

/-- The constant `MessageService::CleanupTimeout`,
`std::chrono::milliseconds(25)`, in nanoseconds. -/
def CleanupTimeout : Nat := 25 * 1000000

/-- The data members of `MessageService` (`messageservice.h`, lines 72–87)
that the modelled methods read or write. -/
structure MessageService where
  m_measurementIndex : Nat
  m_messageIndex : Nat
  m_measurementHandlers : List MeasurementConsumer
  m_messageHandlers : List MessageConsumer
  m_cache : DataCache
  m_lastReload : TimePoint
  m_count : Nat
  deriving DecidableEq, Repr

/-- The constructor of `MessageService` (`messageservice.cpp`, lines 50–71)
for `GetWorkers() = workers` at clock reading `now`: both counters and the
pending-work counter start at 0, the cache is empty, and one handler of each
kind is emplaced per worker. -/
def MessageService.create (workers : Nat) (now : TimePoint) : MessageService :=
  { m_measurementIndex := 0
    m_messageIndex := 0
    m_measurementHandlers := List.replicate workers { m_messages := [] }
    m_messageHandlers := List.replicate workers { m_messages := [] }
    m_cache := { m_sensors := [], m_users := [], m_keys := [] }
    m_lastReload := now
    m_count := 0 }

/-- The element `handlers[idx]` replaced by `f handlers[idx]`; an index past
the end (undefined behaviour in the source) leaves the vector as it is. -/
def updateAt {α : Type} (f : α → α) : Nat → List α → List α
  | _, [] => []
  | 0, a :: rest => f a :: rest
  | idx + 1, a :: rest => a :: updateAt f idx rest

/-- The method `MessageService::AddMeasurement(std::pair<…>)` (lines 177–187).
`fetch_add(1)` returns the old value of the 8-bit counter. -/
def MessageService.AddMeasurement (self : MessageService) (measurement : MeasurementPair) :
    MessageService :=
  let current := self.m_measurementIndex
  let self := { self with m_measurementIndex := (self.m_measurementIndex + 1) % UINT8_MODULUS }
  let current := current % self.m_measurementHandlers.length
  let self := { self with m_count := (self.m_count + 1) % UINT_MODULUS }
  { self with
    m_measurementHandlers :=
      updateAt (fun repo => repo.PushMessage measurement) current self.m_measurementHandlers }

/-- The method `MessageService::AddMeasurement(std::string)` (lines 166–175):
the validator parses the text, and a rejected text is dropped. -/
def MessageService.AddMeasurementString (m_validator : String → Bool × Measurement)
    (self : MessageService) (msg : String) : MessageService :=
  let measurement := m_validator msg
  if !measurement.1 then self
  else self.AddMeasurement (msg, measurement.2)

/-- The method `MessageService::AddMessage` (lines 189–199). -/
def MessageService.AddMessage (self : MessageService) (message : MessagePair) :
    MessageService :=
  let current := self.m_messageIndex
  let self := { self with m_messageIndex := (self.m_messageIndex + 1) % UINT8_MODULUS }
  let current := current % self.m_messageHandlers.length
  let self := { self with m_count := (self.m_count + 1) % UINT_MODULUS }
  { self with
    m_messageHandlers :=
      updateAt (fun repo => repo.PushMessage message) current self.m_messageHandlers }

/-- The method `MessageService::AddMeasurements` (lines 201–215). The cast
`static_cast<unsigned int>` is exact below the guard. -/
def MessageService.AddMeasurements (self : MessageService)
    (measurements : List MeasurementPair) : MessageService :=
  if measurements.length > UINT_MAX then self
  else
    let current := self.m_measurementIndex
    let self := { self with m_measurementIndex := (self.m_measurementIndex + 1) % UINT8_MODULUS }
    let current := current % self.m_measurementHandlers.length
    let self :=
      { self with m_count := (self.m_count + measurements.length % UINT_MODULUS) % UINT_MODULUS }
    { self with
      m_measurementHandlers :=
        updateAt (fun repo => repo.PushMessages measurements) current
          self.m_measurementHandlers }

/-- The method `MessageService::AddMessages` (lines 217–231). -/
def MessageService.AddMessages (self : MessageService) (messages : List MessagePair) :
    MessageService :=
  if messages.length > UINT_MAX then self
  else
    let current := self.m_messageIndex
    let self := { self with m_messageIndex := (self.m_messageIndex + 1) % UINT8_MODULUS }
    let current := current % self.m_messageHandlers.length
    let self :=
      { self with m_count := (self.m_count + messages.length % UINT_MODULUS) % UINT_MODULUS }
    { self with
      m_messageHandlers :=
        updateAt (fun repo => repo.PushMessages messages) current self.m_messageHandlers }

/-- The method `MessageService::LoadAll` (lines 233–257): the three fetches
are launched, their results are awaited in the order sensors, keys, users (a
failed fetch rethrows from `get()`), and only then the three `Append` calls
run, in the order sensors, users, keys. `none` is the exception. -/
def MessageService.LoadAll (env : TickEnv) (self : MessageService) :
    Option MessageService × List Event :=
  let launched := [Event.GetAllSensors, Event.GetAllUsers, Event.GetAllSensorKeys]
  match env.GetAllSensors with
  | none => (none, launched)
  | some sensors =>
    match env.GetAllSensorKeys with
    | none => (none, launched)
    | some keys =>
      match env.GetAllUsers with
      | none => (none, launched)
      | some users =>
        let cache := self.m_cache
        let cache :=
          { cache with m_sensors := upsert (fun v => v.m_id) env.now CacheTimeout cache.m_sensors sensors }
        let cache :=
          { cache with m_users := upsert (fun v => v.m_id) env.now CacheTimeout cache.m_users users }
        let cache :=
          { cache with m_keys := upsert (fun v => v.m_key) env.now CacheTimeout cache.m_keys keys }
        (some { self with m_cache := cache }, launched)

/-- The task of one shard in `MessageService::RawProcess` (the lambda of lines
83–103): the message handler, then the measurement handler, inside one `try`;
an exception of either is logged and the task's result is 0. -/
def shardTask (env : TickEnv) (cache : DataCache) (idx : Nat)
    (measurementHandler : MeasurementConsumer) (messageHandler : MessageConsumer) :
    (MeasurementConsumer × MessageConsumer) × List Event × Nat :=
  let messageOutcome := messageHandler.Process env.consumer cache env.now
  let events :=
    Event.MessageProcess idx ::
      messageOutcome.published.map (fun b => Event.PublishMessages b.1 b.2)
  match messageOutcome.result with
  | none =>
    ((measurementHandler, messageOutcome.consumer),
      events ++ [Event.Log LogLine.unableToPublish], 0)
  | some messageResult =>
    let measurementOutcome := measurementHandler.Process env cache
    let events :=
      events ++ Event.MeasurementProcess idx ::
        measurementOutcome.published.map (fun b => Event.PublishMeasurements b.1 b.2)
    match measurementOutcome.result with
    | none =>
      ((measurementOutcome.consumer, messageOutcome.consumer),
        events ++ [Event.Log LogLine.unableToPublish], 0)
    | some measurementResult =>
      ((measurementOutcome.consumer, messageOutcome.consumer), events,
        messageResult + measurementResult)

/-- The tasks of `RawProcess` for the shards `idx, idx + 1, …`: one per
element of `m_measurementHandlers`, paired with the message handler of the
same index. The source runs each task on a thread of its own; the shards are
disjoint and the tasks only read the cache, and the embedding runs them in
index order. -/
def runShards (env : TickEnv) (cache : DataCache) :
    Nat → List MeasurementConsumer → List MessageConsumer →
      (List MeasurementConsumer × List MessageConsumer) × List Event × Nat
  | idx, measurementHandler :: measurementRest, messageHandler :: messageRest =>
    let task := shardTask env cache idx measurementHandler messageHandler
    let rest := runShards env cache (idx + 1) measurementRest messageRest
    ((task.1.1 :: rest.1.1, task.1.2 :: rest.1.2), task.2.1 ++ rest.2.1, task.2.2 + rest.2.2)
  | _, measurementHandlers, messageHandlers => ((measurementHandlers, messageHandlers), [], 0)

/-- The method `MessageService::RawProcess` (lines 73–126): the shard tasks,
the sum of their results by `WaitForResults`, and the log line when the sum is
not 0. -/
def MessageService.RawProcess (env : TickEnv) (self : MessageService) :
    MessageService × List Event :=
  let run := runShards env self.m_cache 0 self.m_measurementHandlers self.m_messageHandlers
  let authorized := run.2.2
  ({ self with m_measurementHandlers := run.1.1, m_messageHandlers := run.1.2 },
    run.2.1 ++ (if authorized ≠ 0 then [Event.Log (LogLine.authorized authorized)] else []))

/-- The outcome of one tick: the service afterwards, what happened, the
repository calls made inside the drain of the command consumer (inside the
event `Execute`), and the returned `std::time_t` (`none`: an exception left
`Process`). -/
structure TickOutcome where
  service : MessageService
  events : List Event
  targeted : List TargetedFetch
  result : Option Nat

/-- Modelled from the spec: `DataCache::FlushUser` (source absent), "targeted
removal". -/
def DataCache.FlushUser (cache : DataCache) (id : Uuid) : DataCache :=
  { cache with m_users := cache.m_users.filter (fun e => decide (e.value.m_id ≠ id)) }

/-- Modelled from the spec: `DataCache::FlushSensor` (source absent), "targeted
removal". -/
def DataCache.FlushSensor (cache : DataCache) (id : ObjectId) : DataCache :=
  { cache with m_sensors := cache.m_sensors.filter (fun e => decide (e.value.m_id ≠ id)) }

/-- Modelled from the spec: `DataCache::FlushKey` (source absent), "targeted
removal". -/
def DataCache.FlushKey (cache : DataCache) (key : String) : DataCache :=
  { cache with m_keys := cache.m_keys.filter (fun e => decide (e.value.m_key ≠ key)) }

/-- The method `MessageService::FlushUser` (lines 259–263), for a text that
`lexical_cast` converts to `userId`. -/
def MessageService.FlushUser (self : MessageService) (userId : Uuid) : MessageService :=
  { self with m_cache := self.m_cache.FlushUser userId }

/-- The method `MessageService::FlushSensor` (lines 265–269), for a text that
is the hex form of `sensorId`. -/
def MessageService.FlushSensor (self : MessageService) (sensorId : ObjectId) :
    MessageService :=
  { self with m_cache := self.m_cache.FlushSensor sensorId }

/-- The method `MessageService::FlushKey` (lines 271–274). -/
def MessageService.FlushKey (self : MessageService) (key : String) : MessageService :=
  { self with m_cache := self.m_cache.FlushKey key }

/-- The method `MessageService::AddUser` (lines 276–286), for a text that
`lexical_cast` converts to `userId`: the user repository is asked for the
user, and the cache is upserted when it has one. -/
def MessageService.AddUser (env : TickEnv) (self : MessageService) (userId : Uuid) :
    MessageService × List TargetedFetch :=
  let user := env.GetUserById userId
  match user with
  | none => (self, [TargetedFetch.GetUserById userId])
  | some value =>
    ({ self with
       m_cache :=
        { self.m_cache with
          m_users := upsert (fun v => v.m_id) env.now CacheTimeout self.m_cache.m_users [value] } },
      [TargetedFetch.GetUserById userId])

/-- The method `MessageService::AddSensor` (lines 288–298), for a text that is
the hex form of `sensorId`. -/
def MessageService.AddSensor (env : TickEnv) (self : MessageService) (sensorId : ObjectId) :
    MessageService × List TargetedFetch :=
  let sensor := env.GetSensorById sensorId
  match sensor with
  | none => (self, [TargetedFetch.GetSensorById sensorId])
  | some value =>
    ({ self with
       m_cache :=
        { self.m_cache with
          m_sensors :=
            upsert (fun v => v.m_id) env.now CacheTimeout self.m_cache.m_sensors [value] } },
      [TargetedFetch.GetSensorById sensorId])

/-- The method `MessageService::AddKey` (lines 300–309). -/
def MessageService.AddKey (env : TickEnv) (self : MessageService) (key : String) :
    MessageService × List TargetedFetch :=
  let k := env.GetSensorKey key
  match k with
  | none => (self, [TargetedFetch.GetSensorKey key])
  | some value =>
    ({ self with
       m_cache :=
        { self.m_cache with
          m_keys := upsert (fun v => v.m_key) env.now CacheTimeout self.m_cache.m_keys [value] } },
      [TargetedFetch.GetSensorKey key])

/-- One command of the drain: the method of `MessageService` of its name, and
the repository calls that method makes. -/
def MessageService.runCommand (env : TickEnv) (self : MessageService) :
    Command → MessageService × List TargetedFetch
  | Command.FlushUser id => (self.FlushUser id, [])
  | Command.FlushSensor id => (self.FlushSensor id, [])
  | Command.FlushKey key => (self.FlushKey key, [])
  | Command.AddUser id => self.AddUser env id
  | Command.AddSensor id => self.AddSensor env id
  | Command.AddKey key => self.AddKey env key

/-- Modelled from the spec: `CommandConsumer::Execute` (source absent), §4.5:
"Each Add* triggers a targeted repository fetch and a cache upsert. Drained
fully on every tick": the commands of the queue run in order, and the
repository calls they make are collected in order. -/
def MessageService.Execute (env : TickEnv) (self : MessageService) :
    MessageService × List TargetedFetch :=
  env.commands.foldl
    (fun acc command =>
      let done := acc.1.runCommand env command
      (done.1, acc.2 ++ done.2))
    (self, [])

/-- The sweep and the drain that end both branches of `Process`:
`m_cache.CleanupFor(CleanupTimeout)` and `m_commands->Execute()`. -/
def MessageService.cleanupAndExecute (env : TickEnv) (self : MessageService) :
    MessageService × List Event × List TargetedFetch :=
  let self := { self with m_cache := env.CleanupFor CleanupTimeout self.m_cache }
  let drained := self.Execute env
  (drained.1, [Event.CleanupFor CleanupTimeout, Event.Execute], drained.2)

/-- The rest of `MessageService::Process` after the reload (lines 143–163),
for the captured value `count` of the pending-work counter. -/
def MessageService.afterReload (env : TickEnv) (count : Nat) (self : MessageService) :
    TickOutcome :=
  if count ≤ 0 then
    let done := self.cleanupAndExecute env
    { service := done.1, events := done.2.1, targeted := done.2.2, result := some 0 }
  else
    let raw := self.RawProcess env
    let done := raw.1.cleanupAndExecute env
    { service := done.1
      events :=
        [Event.Log (LogLine.processing count)] ++ raw.2 ++ done.2.1
          ++ [Event.Log (LogLine.processingTook env.elapsed)]
      targeted := done.2.2
      result := some env.elapsed }

/-- The method `MessageService::Process` (lines 129–164). The pending-work
counter is exchanged with 0 first; `m_lastReload` is written before `LoadAll`
is called; an exception of `LoadAll` is not caught here. -/
def MessageService.Process (env : TickEnv) (self : MessageService) : TickOutcome :=
  let count := self.m_count
  let self := { self with m_count := 0 }
  let expiry := self.m_lastReload + ReloadTimeout
  if expiry ≤ env.now then
    let self := { self with m_lastReload := env.now }
    let loaded := self.LoadAll env
    match loaded.1 with
    | none =>
      { service := self
        events := Event.Log LogLine.reloadingCaches :: loaded.2
        targeted := []
        result := none }
    | some self =>
      let rest := self.afterReload env count
      { rest with events := Event.Log LogLine.reloadingCaches :: loaded.2 ++ rest.events }
  else self.afterReload env count

/-- Whether the event is one of the three bulk fetches of `LoadAll`. -/
def Event.isRepositoryCall : Event → Bool
  | Event.GetAllSensors => true
  | Event.GetAllUsers => true
  | Event.GetAllSensorKeys => true
  | _ => false

/-- Whether a reload is due in the tick: `expiry <= now`. -/
def MessageService.reloadDue (env : TickEnv) (self : MessageService) : Bool :=
  decide (self.m_lastReload + ReloadTimeout ≤ env.now)

/-- Whether a reload is due in the tick and one of its three fetches fails. -/
def MessageService.reloadFails (env : TickEnv) (self : MessageService) : Bool :=
  self.reloadDue env &&
    (env.GetAllSensors.isNone || env.GetAllSensorKeys.isNone || env.GetAllUsers.isNone)

/-- What a reload that is due shows: the log line and the three repository
calls; nothing when no reload is due. -/
def MessageService.reloadEvents (env : TickEnv) (self : MessageService) : List Event :=
  if self.reloadDue env then
    [Event.Log LogLine.reloadingCaches, Event.GetAllSensors, Event.GetAllUsers,
     Event.GetAllSensorKeys]
  else []

/-- The cache the shard tasks of the tick read: the cache after the reload when
one is due and succeeds, the cache of the service otherwise. -/
def MessageService.tickCache (env : TickEnv) (self : MessageService) : DataCache :=
  if self.reloadDue env then
    match (MessageService.LoadAll env self).1 with
    | some loaded => loaded.m_cache
    | none => self.m_cache
  else self.m_cache

/-- Whether the `Process` of the message consumer of shard `i` returns in the
tick (rather than leaving by an exception). -/
def MessageService.messageShardReturns (env : TickEnv) (self : MessageService) (i : Nat) :
    Bool :=
  match self.m_messageHandlers[i]? with
  | some handler =>
    (handler.Process env.consumer (self.tickCache env) env.now).result.isSome
  | none => false

/-- The repository call a command makes when it is drained: one targeted
fetch for an `Add` command, none for a `Flush` command. -/
def Command.fetch : Command → List TargetedFetch
  | Command.AddUser id => [TargetedFetch.GetUserById id]
  | Command.AddSensor id => [TargetedFetch.GetSensorById id]
  | Command.AddKey key => [TargetedFetch.GetSensorKey key]
  | _ => []

/-- A call on the service: one of the five ingress methods, or a tick. -/
inductive Call where
  | AddMeasurementString (msg : String)
  | AddMeasurement (measurement : MeasurementPair)
  | AddMessage (message : MessagePair)
  | AddMeasurements (measurements : List MeasurementPair)
  | AddMessages (messages : List MessagePair)
  | Process (env : TickEnv)

/-- The service after one call; the string overload uses the validator
`m_validator`. -/
def MessageService.step (m_validator : String → Bool × Measurement) (self : MessageService) :
    Call → MessageService
  | Call.AddMeasurementString msg => self.AddMeasurementString m_validator msg
  | Call.AddMeasurement measurement => self.AddMeasurement measurement
  | Call.AddMessage message => self.AddMessage message
  | Call.AddMeasurements measurements => self.AddMeasurements measurements
  | Call.AddMessages messages => self.AddMessages messages
  | Call.Process env => (self.Process env).service

/-- The service after a sequence of calls, one after the other. -/
def MessageService.run (m_validator : String → Bool × Measurement) (self : MessageService)
    (calls : List Call) : MessageService :=
  calls.foldl (MessageService.step m_validator) self

/-- Whether a call advances the measurement shard counter: the measurement
ingress calls that reach their push. -/
def Call.advancesMeasurement (m_validator : String → Bool × Measurement) : Call → Bool
  | Call.AddMeasurementString msg => (m_validator msg).1
  | Call.AddMeasurement _ => true
  | Call.AddMeasurements measurements => decide (measurements.length ≤ UINT_MAX)
  | _ => false

/-- Whether a call advances the message shard counter: the message ingress
calls that reach their push. -/
def Call.advancesMessage : Call → Bool
  | Call.AddMessage _ => true
  | Call.AddMessages messages => decide (messages.length ≤ UINT_MAX)
  | _ => false

/-! ## The naive walk -/

/-- The walk that calls `GetSensor` for every entry and holds nothing from one
entry to the next; apart from that it is the loop body of
`MessageConsumer::Process`. -/
def MessageConsumer.naiveWalk (env : ConsumerEnv) (lookup : ObjectId → SensorLookupType) :
    List MessagePair → Option (List Message)
  | [] => some []
  | pair :: rest =>
    let sensor := lookup pair.2.m_sensorId
    if !sensor.1 then MessageConsumer.naiveWalk env lookup rest
    else
      match sensor.2 with
      | none => MessageConsumer.naiveWalk env lookup rest
      | some s =>
        match ValidateMessage env s pair with
        | none => none
        | some false => MessageConsumer.naiveWalk env lookup rest
        | some true =>
          (MessageConsumer.naiveWalk env lookup rest).map (fun tail => pair.2 :: tail)

/-- The method `MessageConsumer::Process` with the naive walk in the place of
its loop: the same swap, sort, publish and count. -/
def MessageConsumer.naiveProcess (env : ConsumerEnv) (cache : DataCache) (now : TimePoint)
    (self : MessageConsumer) : ProcessOutcome :=
  let data := sortBySensorId self.m_messages
  match MessageConsumer.naiveWalk env (fun id => cache.GetSensor id now) data with
  | none => { consumer := { m_messages := [] }, published := [], result := none }
  | some authorized =>
    if authorized.isEmpty then
      { consumer := { m_messages := [] }, published := [], result := some 0 }
    else if env.accepts env.BulkMessageTopic authorized then
      { consumer := { m_messages := [] }
        published := [(env.BulkMessageTopic, authorized)]
        result := some authorized.length }
    else
      { consumer := { m_messages := [] }, published := [], result := none }

/-- A lookup that is not keyed by the sensor's id: asked for sensor 1 it
returns a sensor whose id is 2, and it knows no other sensor. -/
def miskeyedLookup (id : ObjectId) : SensorLookupType :=
  if id = 1 then (true, some { m_id := 2, m_owner := 10, m_secret := "secret1" })
  else (false, none)

/-! ## Pending work -/

/-- The number of payloads buffered in the service, all shards and both kinds
together. -/
def MessageService.pending (self : MessageService) : Nat :=
  (self.m_measurementHandlers.map (fun h => h.m_messages.length)).sum
    + (self.m_messageHandlers.map (fun h => h.m_messages.length)).sum

/-- Whether no shard consumer fails in the tick: the `Process` of every message
consumer and of every measurement consumer returns. -/
def MessageService.shardsReturn (env : TickEnv) (self : MessageService) : Bool :=
  self.m_messageHandlers.all
      (fun h => (h.Process env.consumer (self.tickCache env) env.now).result.isSome) &&
    self.m_measurementHandlers.all
      (fun h => (h.Process env (self.tickCache env)).result.isSome)

/-- Whether, in a sequence of calls made one after the other, every tick is
one in which no reload fails and no shard consumer fails. -/
def MessageService.quiet (m_validator : String → Bool × Measurement) :
    MessageService → List Call → Bool
  | _, [] => true
  | self, c :: rest =>
    (match c with
      | Call.Process env => !self.reloadFails env && self.shardsReturn env
      | _ => true) &&
    MessageService.quiet m_validator (self.step m_validator c) rest

/-! ## Sample data -/

/-- A sensor with the plaintext secret "secret1". -/
def sensorA : Sensor := { m_id := 1, m_owner := 10, m_secret := "secret1" }

/-- A message that carries the literal secret of `sensorA` and no sentinel. -/
def plainPair : MessagePair :=
  ("\x7b\"secret\":\"secret1\",\"data\":\"hello\"\x7d",
   { m_secret := "secret1", m_data := "hello", m_sensorId := 1 })

/-- A message that carries the literal secret of `sensorA` while its data
field holds a text of sentinel form. -/
def sentinelInDataPair : MessagePair :=
  ("\x7b\"secret\":\"secret1\",\"data\":\"$==ba7816bf8f01cfea414140de5dae2223b00361a396177a9cb410ff61f20015ad==\"\x7d",
   { m_secret := "secret1"
     m_data := "$==ba7816bf8f01cfea414140de5dae2223b00361a396177a9cb410ff61f20015ad=="
     m_sensorId := 1 })

/-- The sensor of scenario 3, with secret "s". -/
def sensorS : Sensor := { m_id := 2, m_owner := 10, m_secret := "s" }

/-- The payload of scenario 3: the secret field wraps the SHA-256 digest of
the payload in which that field reads "s". -/
def signedPair : MessagePair :=
  ("\x7b\"secret\":\"$==cfd12e49832a0ec7bc69df6d2562451d8d2473e23d4ae98ce396b31ceef5655d==\",\"data\":\"hello\"\x7d",
   { m_secret := "$==cfd12e49832a0ec7bc69df6d2562451d8d2473e23d4ae98ce396b31ceef5655d=="
     m_data := "hello"
     m_sensorId := 2 })

/-- The owner of the sample sensors and the keys of their secrets, inserted at
instant 0 with the cache timeout of six minutes. -/
def sampleCache : DataCache where
  m_sensors := [⟨sensorA, 0, 360000000000⟩, ⟨sensorS, 0, 360000000000⟩]
  m_users := [⟨{ m_id := 10, m_banned := false, m_lockout := false }, 0, 360000000000⟩]
  m_keys := [⟨{ m_key := "secret1", m_revoked := false }, 0, 360000000000⟩,
             ⟨{ m_key := "s", m_revoked := false }, 0, 360000000000⟩]

/-- A message for a sensor the cache does not hold, with the secret of
`sensorA`. -/
def strangerPair : MessagePair :=
  ("\x7b\"secret\":\"secret1\",\"data\":\"knock\"\x7d",
   { m_secret := "secret1", m_data := "knock", m_sensorId := 7 })

/-- A measurement with one datapoint that has both an accuracy and a
precision. -/
def sampleMeasurement : Measurement :=
  { m_sensorId := 1
    m_secret := "secret1"
    m_data := [{ m_value := 21, m_unit := "C", m_accuracy := some 5, m_precision := some 9 }]
    m_coordinates := (51, 4)
    m_createdAt := "" }

/-- An encoder for the evaluation of `to_protobuf` on samples: the accuracy
fields that are set, record by record, datapoint by datapoint. -/
def sampleEncoder (data : MeasurementData) : List Nat :=
  data.measurements.flatMap (fun r => r.datapoints.filterMap (fun d => d.accuracy))

/-- A measurement entry of a shard buffer. -/
def measurementPair : MeasurementPair :=
  ("\x7b\"CreatedById\":\"1\"\x7d", sampleMeasurement)

/-- A validator that rejects every text. -/
def rejectAll : String → Bool × Measurement :=
  fun _ => (false, sampleMeasurement)

/-- A short sequence of ingress calls of both kinds. -/
def sampleCalls : List Call :=
  [Call.AddMeasurement measurementPair, Call.AddMessage plainPair,
   Call.AddMeasurements [measurementPair, measurementPair], Call.AddMeasurement measurementPair]

/-- A tick environment at clock reading `now`: the repositories return the
sample sensors, their owner and their keys; the sweep leaves the cache as it
is and no command is queued; every measurement is authorized and its publish
taken; the busy part takes 3 ms. -/
def sampleTick (consumer : ConsumerEnv) (now : TimePoint) : TickEnv where
  consumer := consumer
  now := now
  GetAllSensors := some [sensorA, sensorS]
  GetAllUsers := some [{ m_id := 10, m_banned := false, m_lockout := false }]
  GetAllSensorKeys :=
    some [{ m_key := "secret1", m_revoked := false }, { m_key := "s", m_revoked := false }]
  CleanupFor := fun _ cache => cache
  commands := []
  GetUserById := fun id =>
    if id = 10 then some { m_id := 10, m_banned := false, m_lockout := false } else none
  GetSensorById := fun id =>
    if id = 1 then some sensorA else if id = 2 then some sensorS else none
  GetSensorKey := fun key =>
    if key = "secret1" ∨ key = "s" then some { m_key := key, m_revoked := false } else none
  authorizeMeasurements := fun _ _ data => some (data.map Prod.snd)
  BulkMeasurementTopic := "internal/bulk/measurements"
  acceptsMeasurements := fun _ _ => true
  elapsed := 3

/-- A service with one worker whose cache holds the sample sensors, after one
message and one measurement have been added. -/
def busyService : MessageService :=
  ({ MessageService.create 1 0 with m_cache := sampleCache }.AddMessage plainPair).AddMeasurement
    measurementPair

/-- A tick environment at clock reading `now` in which the fetch of the users
fails and the two other fetches succeed. -/
def failingTick (now : TimePoint) : TickEnv :=
  { sampleTick scenarioEnv now with GetAllUsers := none }

/-- A tick environment at clock reading `now` whose command queue holds the
commands `AddUser 10` and `FlushSensor 1`. -/
def commandTick (now : TimePoint) : TickEnv :=
  { sampleTick scenarioEnv now with commands := [Command.AddUser 10, Command.FlushSensor 1] }

/-- A service with one worker and the sample cache, last reloaded at instant 0,
with one message buffered. -/
def loadedService : MessageService :=
  { MessageService.create 1 0 with m_cache := sampleCache }.AddMessage plainPair

/-- A sequence of calls with a busy tick in the middle and an idle tick at
the end. -/
def quietCalls : List Call :=
  [Call.AddMessage plainPair, Call.AddMeasurement measurementPair,
   Call.Process (sampleTick scenarioEnv 1), Call.AddMessages [plainPair, strangerPair],
   Call.Process (sampleTick scenarioEnv 2), Call.Process (sampleTick scenarioEnv 3)]

/-! # Properties -/

/-! ## ValidateMessage -/

theorem sha256hex_length (s : String) : (sha256hex s).length = 64 := by
  simp [sha256hex, hexWord, String.length]

/-- With a sentinel found and the digest extracted, the outcome is the digest
comparison. -/
theorem ValidateMessage_of_match (env : ConsumerEnv) (sensor : Sensor) (pair : MessagePair)
    (canonical key : String)
    (hmatch : env.Replace pair.1 sensor.m_secret = some canonical)
    (hkey : substr pair.2.m_secret env.SecretSubstringStart
      ((pair.2.m_secret.length + SIZE_MODULUS - env.SecretSubStringOffset % SIZE_MODULUS)
        % SIZE_MODULUS) = some key) :
    ValidateMessage env sensor pair = some (HashCompare env canonical key) := by
  simp only [ValidateMessage, hmatch, hkey]

/-- With a sentinel found and a secret field shorter than the start of the
digest, `substr` throws. -/
theorem ValidateMessage_of_short (env : ConsumerEnv) (sensor : Sensor) (pair : MessagePair)
    (canonical : String)
    (hmatch : env.Replace pair.1 sensor.m_secret = some canonical)
    (hshort : pair.2.m_secret.length < env.SecretSubstringStart) :
    ValidateMessage env sensor pair = none := by
  simp only [ValidateMessage, hmatch, substr, if_pos hshort.gt]

/-- For a well-formed wrapper `substr` returns the middle of the field. -/
theorem substr_middle (s : String) (start off : Nat) (hso : start ≤ off)
    (hlen : off ≤ s.length) (hsize : s.length < SIZE_MODULUS) :
    substr s start ((s.length + SIZE_MODULUS - off % SIZE_MODULUS) % SIZE_MODULUS)
      = some (String.mk ((s.data.drop start).take (s.length - off))) := by
  have hoff : off % SIZE_MODULUS = off := Nat.mod_eq_of_lt (by omega)
  have hcalc : (s.length + SIZE_MODULUS - off) % SIZE_MODULUS = s.length - off := by
    have : s.length + SIZE_MODULUS - off = (s.length - off) + SIZE_MODULUS := by omega
    rw [this, Nat.add_mod_right]
    exact Nat.mod_eq_of_lt (by omega)
  have hpos : ¬ start > s.length := by omega
  simp only [substr, hoff, hcalc, if_neg hpos]

/-- The middle of a well-formed wrapper has the length the offsets give. -/
theorem middle_length (s : String) (start off : Nat) (hso : start ≤ off)
    (hlen : off ≤ s.length) :
    (String.mk ((s.data.drop start).take (s.length - off))).length = s.length - off := by
  have hdata : s.length = s.data.length := rfl
  simp only [String.length, List.length_take, List.length_drop] at *
  omega

/-- C1 (as amended). Mode A: when `RE2::Replace` finds no sentinel in the raw
payload, `ValidateMessage` returns, and it accepts a message whose secret
field equals the sensor's secret literally and rejects every message whose
secret field differs from it. -/
theorem ValidateMessage_plaintext (env : ConsumerEnv) (sensor : Sensor) (pair : MessagePair)
    (hno : env.Replace pair.1 sensor.m_secret = none) :
    (pair.2.m_secret = sensor.m_secret → ValidateMessage env sensor pair = some true) ∧
    (pair.2.m_secret ≠ sensor.m_secret → ValidateMessage env sensor pair = some false) := by
  constructor
  · intro h
    simp [ValidateMessage, hno, h]
  · intro h
    simp [ValidateMessage, hno, h]

/-- Witness of C1: the plaintext payload of `sensorA` holds no sentinel and is
accepted, and the same payload is rejected for a sensor with another secret. -/
theorem ValidateMessage_plaintext_witness :
    scenarioEnv.Replace plainPair.1 sensorA.m_secret = none ∧
    (plainPair.2.m_secret = sensorA.m_secret →
      ValidateMessage scenarioEnv sensorA plainPair = some true) ∧
    (plainPair.2.m_secret ≠ sensorA.m_secret →
      ValidateMessage scenarioEnv sensorA plainPair = some false) :=
  ⟨by decide, ValidateMessage_plaintext scenarioEnv sensorA plainPair (by decide)⟩

/-- Counterexample to C1 as stated: the message carries the sensor's secret
literally, its raw payload holds a sentinel (in the data field), so the digest
comparison decides, against the two characters the offsets cut out of
"secret1", and the message is rejected. -/
theorem ValidateMessage_literal_secret_rejected :
    sentinelInDataPair.2.m_secret = sensorA.m_secret ∧
    ValidateMessage scenarioEnv sensorA sentinelInDataPair = some false := by
  refine ⟨by decide, ?_⟩
  have hmatch : scenarioEnv.Replace sentinelInDataPair.1 sensorA.m_secret
      = some "\x7b\"secret\":\"secret1\",\"data\":\"secret1\"\x7d" := by decide
  have hkey : substr sentinelInDataPair.2.m_secret scenarioEnv.SecretSubstringStart
      ((sentinelInDataPair.2.m_secret.length + SIZE_MODULUS
        - scenarioEnv.SecretSubStringOffset % SIZE_MODULUS) % SIZE_MODULUS) = some "re" := by
    decide
  rw [ValidateMessage_of_match scenarioEnv sensorA sentinelInDataPair _ _ hmatch hkey]
  have hne : sha256hex "\x7b\"secret\":\"secret1\",\"data\":\"secret1\"\x7d" ≠ "re" := by
    intro h
    have hlen := sha256hex_length "\x7b\"secret\":\"secret1\",\"data\":\"secret1\"\x7d"
    rw [h] at hlen
    exact absurd hlen (by decide)
  simp [HashCompare, scenarioEnv, hne]

/-- C2. Mode B: when `RE2::Replace` finds a sentinel in the raw payload and
leaves the canonical string, `ValidateMessage` returns true exactly when the
digest of the canonical string is the substring `substr(SecretSubstringStart,
length − SecretSubStringOffset)` of the message's secret field; for a field
that holds the whole wrapper that substring is the `length −
SecretSubStringOffset` characters starting at `SecretSubstringStart`, and the
call returns the digest comparison, whatever the literal comparison of the
secrets would give. -/
theorem ValidateMessage_digest (env : ConsumerEnv) (sensor : Sensor) (pair : MessagePair)
    (canonical : String)
    (hmatch : env.Replace pair.1 sensor.m_secret = some canonical) :
    (ValidateMessage env sensor pair = some true ↔
      substr pair.2.m_secret env.SecretSubstringStart
        ((pair.2.m_secret.length + SIZE_MODULUS - env.SecretSubStringOffset % SIZE_MODULUS)
          % SIZE_MODULUS) = some (env.sha256 canonical)) ∧
    (env.SecretSubstringStart ≤ env.SecretSubStringOffset →
      env.SecretSubStringOffset ≤ pair.2.m_secret.length →
      pair.2.m_secret.length < SIZE_MODULUS →
      ∃ claimed : String,
        claimed.data = (pair.2.m_secret.data.drop env.SecretSubstringStart).take
          (pair.2.m_secret.length - env.SecretSubStringOffset) ∧
        claimed.length = pair.2.m_secret.length - env.SecretSubStringOffset ∧
        ValidateMessage env sensor pair = some (decide (env.sha256 canonical = claimed))) := by
  constructor
  · cases hsub : substr pair.2.m_secret env.SecretSubstringStart
        ((pair.2.m_secret.length + SIZE_MODULUS - env.SecretSubStringOffset % SIZE_MODULUS)
          % SIZE_MODULUS) with
    | none =>
      have hv : ValidateMessage env sensor pair = none := by
        simp only [ValidateMessage, hmatch, hsub]
      simp [hv]
    | some key =>
      rw [ValidateMessage_of_match env sensor pair canonical key hmatch hsub]
      simp only [HashCompare, Option.some.injEq, decide_eq_true_eq]
      exact ⟨fun h => h.symm, fun h => h.symm⟩
  · intro hso hlen hsize
    refine ⟨String.mk ((pair.2.m_secret.data.drop env.SecretSubstringStart).take
      (pair.2.m_secret.length - env.SecretSubStringOffset)), rfl, ?_, ?_⟩
    · exact middle_length pair.2.m_secret _ _ hso hlen
    · rw [ValidateMessage_of_match env sensor pair canonical _ hmatch
        (substr_middle pair.2.m_secret _ _ hso hlen hsize)]
      rfl

/-- Witness of C2: the signed payload of scenario 3 holds a sentinel, and the
property holds of it. -/
theorem ValidateMessage_digest_witness :
    scenarioEnv.Replace signedPair.1 sensorS.m_secret
      = some "\x7b\"secret\":\"s\",\"data\":\"hello\"\x7d" ∧
    ((ValidateMessage scenarioEnv sensorS signedPair = some true ↔
      substr signedPair.2.m_secret scenarioEnv.SecretSubstringStart
        ((signedPair.2.m_secret.length + SIZE_MODULUS
          - scenarioEnv.SecretSubStringOffset % SIZE_MODULUS) % SIZE_MODULUS)
        = some (scenarioEnv.sha256 "\x7b\"secret\":\"s\",\"data\":\"hello\"\x7d")) ∧
    (scenarioEnv.SecretSubstringStart ≤ scenarioEnv.SecretSubStringOffset →
      scenarioEnv.SecretSubStringOffset ≤ signedPair.2.m_secret.length →
      signedPair.2.m_secret.length < SIZE_MODULUS →
      ∃ claimed : String,
        claimed.data = (signedPair.2.m_secret.data.drop scenarioEnv.SecretSubstringStart).take
          (signedPair.2.m_secret.length - scenarioEnv.SecretSubStringOffset) ∧
        claimed.length = signedPair.2.m_secret.length - scenarioEnv.SecretSubStringOffset ∧
        ValidateMessage scenarioEnv sensorS signedPair
          = some (decide (scenarioEnv.sha256 "\x7b\"secret\":\"s\",\"data\":\"hello\"\x7d"
              = claimed)))) :=
  ⟨by decide, ValidateMessage_digest scenarioEnv sensorS signedPair _ (by decide)⟩

/-- Scenario 3 of the spec, evaluated: the signed payload is accepted. -/
theorem scenario3_accepted : ValidateMessage scenarioEnv sensorS signedPair = some true := by
  rfl

/-! ## MessageConsumer::Process -/

/-- A sensor returned by the cache has the id it was asked for. -/
theorem GetSensor_id (cache : DataCache) (id : ObjectId) (now : TimePoint) (s : Sensor)
    (h : (cache.GetSensor id now).2 = some s) : s.m_id = id := by
  unfold DataCache.GetSensor at h
  split at h
  · simp at h
  · rename_i se hse
    have hid := List.find?_some hse
    simp only [beq_iff_eq] at hid
    repeat' split at h
    all_goals first
      | (simp at h; done)
      | (simp only [Option.some.injEq] at h; rw [← h]; exact hid)

/-- The held pair is coherent with a lookup when a held sensor is what the
lookup returns for that sensor's id. -/
theorem refreshSensor_eq (lookup : ObjectId → SensorLookupType) (sensor : SensorLookupType)
    (id : ObjectId) (hcoh : ∀ s, sensor.2 = some s → sensor = lookup s.m_id) :
    refreshSensor lookup sensor id = lookup id := by
  unfold refreshSensor
  split
  · rfl
  · rename_i held hheld
    split
    · rfl
    · rename_i hne
      have : held.m_id = id := by simpa using hne
      rw [hcoh held hheld, this]

/-- The walk, with its reuse of the held sensor, authorizes exactly the entries
that pass and throws exactly when some entry raises. -/
theorem walk_eq (env : ConsumerEnv) (lookup : ObjectId → SensorLookupType)
    (hid : ∀ id s, (lookup id).2 = some s → s.m_id = id) :
    ∀ (data : List MessagePair) (sensor : SensorLookupType),
      (∀ s, sensor.2 = some s → sensor = lookup s.m_id) →
      MessageConsumer.walk env lookup sensor data =
        if data.any (raises env lookup) then none
        else some ((data.filter (passes env lookup)).map Prod.snd) := by
  intro data
  induction data with
  | nil => intro sensor _; rfl
  | cons pair rest ih =>
    intro sensor hcoh
    have hcoh2 : ∀ s, (lookup pair.2.m_sensorId).2 = some s →
        lookup pair.2.m_sensorId = lookup s.m_id := by
      intro s hs
      rw [hid _ s hs]
    have ih2 := ih (lookup pair.2.m_sensorId) hcoh2
    simp only [MessageConsumer.walk, refreshSensor_eq lookup sensor _ hcoh]
    have hr : ∀ b o, lookup pair.2.m_sensorId = (b, o) →
        raises env lookup pair = (match b, o with
          | true, some s => ValidateMessage env s pair == none
          | _, _ => false) := by
      intro b o h
      unfold raises
      rw [h]
      cases b <;> cases o <;> rfl
    have hp : ∀ b o, lookup pair.2.m_sensorId = (b, o) →
        passes env lookup pair = (match b, o with
          | true, some s => ValidateMessage env s pair == some true
          | _, _ => false) := by
      intro b o h
      unfold passes
      rw [h]
      cases b <;> cases o <;> rfl
    rcases hl : lookup pair.2.m_sensorId with ⟨found, value⟩
    rw [hl] at ih2
    have hr2 := hr found value hl
    have hp2 := hp found value hl
    cases hany : rest.any (raises env lookup) <;> rw [hany] at ih2 <;>
      cases found <;> cases value <;>
      simp only [List.any_cons, List.filter_cons, hr2, hp2, ih2, hany] <;>
      try simp
    all_goals
      rename_i s
      cases hv : ValidateMessage env s pair with
      | none => simp
      | some ok => cases ok <;> simp

/-! ### The sort -/

/-- Entries are in order exactly when their sensor ids do not decrease. -/
theorem inOrder_iff (x y : MessagePair) : inOrder x y ↔ x.2.m_sensorId ≤ y.2.m_sensorId := by
  simp only [inOrder, sortLess, decide_eq_false_iff_not, not_lt]

instance inOrderTotal : IsTotal MessagePair inOrder :=
  ⟨fun x y => by
    rw [inOrder_iff, inOrder_iff]
    exact Nat.le_total _ _⟩

instance inOrderTrans : IsTrans MessagePair inOrder :=
  ⟨fun x y z => by
    rw [inOrder_iff, inOrder_iff, inOrder_iff]
    exact Nat.le_trans⟩

/-- The sorted data is a rearrangement of the drained buffer. -/
theorem sortBySensorId_perm (data : List MessagePair) : (sortBySensorId data).Perm data :=
  List.perm_insertionSort inOrder data

/-- The sorted data has no pair out of order. -/
theorem sortBySensorId_sorted (data : List MessagePair) :
    (sortBySensorId data).Pairwise inOrder :=
  List.sorted_insertionSort inOrder data

/-- Inserting below every element of a list puts the element in front. -/
theorem orderedInsert_front (a : MessagePair) (l : List MessagePair)
    (h : ∀ b ∈ l, inOrder a b) : l.orderedInsert inOrder a = a :: l := by
  cases l with
  | nil => rfl
  | cons b t => exact List.orderedInsert_of_le inOrder t (h b (List.mem_cons_self b t))

/-- Filtering commutes with the insertion into a sorted list. -/
theorem filter_orderedInsert (p : MessagePair → Bool) (a : MessagePair) :
    ∀ l : List MessagePair, l.Pairwise inOrder →
      (l.orderedInsert inOrder a).filter p =
        if p a then (l.filter p).orderedInsert inOrder a else l.filter p := by
  intro l
  induction l with
  | nil => intro _; cases hp : p a <;> simp [hp]
  | cons b t ih =>
    intro hsorted
    have htail : t.Pairwise inOrder := (List.pairwise_cons.mp hsorted).2
    have hb : ∀ c ∈ t, inOrder b c := (List.pairwise_cons.mp hsorted).1
    by_cases hab : inOrder a b
    · have hfront : ∀ c ∈ (b :: t).filter p, inOrder a c := by
        intro c hc
        have hc2 : c ∈ b :: t := (List.mem_filter.mp hc).1
        rcases List.mem_cons.mp hc2 with rfl | hct
        · exact hab
        · exact inOrderTrans.trans _ _ _ hab (hb c hct)
      rw [List.orderedInsert_of_le inOrder t hab, orderedInsert_front a _ hfront]
      cases hp : p a <;> simp [List.filter_cons, hp]
    · have hins : (b :: t).orderedInsert inOrder a = b :: t.orderedInsert inOrder a := by
        simp only [List.orderedInsert, if_neg hab]
      rw [hins, List.filter_cons, ih htail]
      cases hpb : p b
      · simp only [List.filter_cons, hpb]
        simp
      · cases hpa : p a
        · simp [List.filter_cons, hpb]
        · simp only [List.filter_cons, hpb, if_true]
          simp only [List.orderedInsert, if_neg hab]

/-- Filtering the drained buffer before the sort or after it gives the same
sorted data. -/
theorem filter_sortBySensorId (p : MessagePair → Bool) (data : List MessagePair) :
    (sortBySensorId data).filter p = sortBySensorId (data.filter p) := by
  induction data with
  | nil => rfl
  | cons a t ih =>
    have hstep : sortBySensorId (a :: t) = (sortBySensorId t).orderedInsert inOrder a := rfl
    rw [hstep, filter_orderedInsert p a _ (sortBySensorId_sorted t), ih]
    cases hp : p a <;> simp [List.filter_cons, hp, sortBySensorId]

/-! ### The outcome of Process -/

/-- The outcome of `Process` in terms of the entries that raise and pass. -/
theorem Process_eq (env : ConsumerEnv) (cache : DataCache) (now : TimePoint)
    (self : MessageConsumer) :
    MessageConsumer.Process env cache now self =
      if (sortBySensorId self.m_messages).any (raises env (fun id => cache.GetSensor id now))
      then { consumer := { m_messages := [] }, published := [], result := none }
      else if (authorizedBatch env cache now self.m_messages).isEmpty then
        { consumer := { m_messages := [] }, published := [], result := some 0 }
      else if env.accepts env.BulkMessageTopic (authorizedBatch env cache now self.m_messages)
      then
        { consumer := { m_messages := [] }
          published := [(env.BulkMessageTopic, authorizedBatch env cache now self.m_messages)]
          result := some (authorizedBatch env cache now self.m_messages).length }
      else { consumer := { m_messages := [] }, published := [], result := none } := by
  have hwalk := walk_eq env (fun id => cache.GetSensor id now)
    (fun id s h => GetSensor_id cache id now s h) (sortBySensorId self.m_messages)
    (false, none) (fun s h => by simp at h)
  unfold MessageConsumer.Process
  simp only [hwalk]
  by_cases hany : (sortBySensorId self.m_messages).any
      (raises env (fun id => cache.GetSensor id now)) = true
  · simp only [hany, if_true]
  · simp only [hany]
    rfl

/-- Whatever `Process` publishes is the authorized batch on the bulk message
topic, and nothing else is published. -/
theorem Process_published (env : ConsumerEnv) (cache : DataCache) (now : TimePoint)
    (self : MessageConsumer) :
    (MessageConsumer.Process env cache now self).published = [] ∨
    (MessageConsumer.Process env cache now self).published =
      [(env.BulkMessageTopic, authorizedBatch env cache now self.m_messages)] := by
  rw [Process_eq]
  split
  · exact Or.inl rfl
  · split
    · exact Or.inl rfl
    · split
      · exact Or.inr rfl
      · exact Or.inl rfl

/-- The buffer is empty after `Process`, however it ends. -/
theorem Process_drains (env : ConsumerEnv) (cache : DataCache) (now : TimePoint)
    (self : MessageConsumer) :
    (MessageConsumer.Process env cache now self).consumer.m_messages = [] := by
  rw [Process_eq]
  repeat' split
  all_goals rfl

/-- An entry that passes has a usable lookup. -/
theorem passes_usable (env : ConsumerEnv) (lookup : ObjectId → SensorLookupType)
    (pair : MessagePair) (h : passes env lookup pair = true) :
    unusable (lookup pair.2.m_sensorId) = false := by
  unfold passes at h
  split at h
  · rename_i s hl
    simp [unusable, hl]
  · exact absurd h (by simp)

/-- An entry that raises has a usable lookup. -/
theorem raises_usable (env : ConsumerEnv) (lookup : ObjectId → SensorLookupType)
    (pair : MessagePair) (h : raises env lookup pair = true) :
    unusable (lookup pair.2.m_sensorId) = false := by
  unfold raises at h
  split at h
  · rename_i s hl
    simp [unusable, hl]
  · exact absurd h (by simp)

/-- Every message of the authorized batch comes from a buffered entry that
passes. -/
theorem mem_authorizedBatch (env : ConsumerEnv) (cache : DataCache) (now : TimePoint)
    (buffer : List MessagePair) (m : Message)
    (hm : m ∈ authorizedBatch env cache now buffer) :
    ∃ pair ∈ buffer, pair.2 = m ∧ passes env (fun id => cache.GetSensor id now) pair = true := by
  unfold authorizedBatch at hm
  rcases List.mem_map.mp hm with ⟨pair, hpair, rfl⟩
  have hmem := List.mem_filter.mp hpair
  exact ⟨pair, (sortBySensorId_perm buffer).mem_iff.mp hmem.1, rfl, hmem.2⟩

/-- C3. An entry whose sensor lookup at the tick's time is `(false, _)` or
`(true, none)` is never in a batch `Process` publishes, and `Process` on the
buffer without all such entries has the same outcome (the same published
batch, the same returned value), whatever the secret fields of those entries
contain. -/
theorem Process_skips_unusable (env : ConsumerEnv) (cache : DataCache) (now : TimePoint)
    (self : MessageConsumer) :
    (∀ pair ∈ self.m_messages, unusable (cache.GetSensor pair.2.m_sensorId now) = true →
      ∀ topic batch, (topic, batch) ∈ (MessageConsumer.Process env cache now self).published →
        pair.2 ∉ batch) ∧
    MessageConsumer.Process env cache now
      { m_messages := self.m_messages.filter
          (fun pair => !unusable (cache.GetSensor pair.2.m_sensorId now)) }
      = MessageConsumer.Process env cache now self := by
  constructor
  · intro pair _ hun topic batch hpub hin
    have hbatch : batch = authorizedBatch env cache now self.m_messages := by
      rcases Process_published env cache now self with h | h
      · rw [h] at hpub
        exact absurd hpub (List.not_mem_nil _)
      · rw [h] at hpub
        exact (Prod.mk.inj (List.mem_singleton.mp hpub)).2
    rw [hbatch] at hin
    rcases mem_authorizedBatch env cache now _ _ hin with ⟨q, _, hq, hpass⟩
    have hq2 : unusable (cache.GetSensor q.2.m_sensorId now) = false :=
      passes_usable env _ q hpass
    rw [hq, hun] at hq2
    exact absurd hq2 (by decide)
  · have hsort := filter_sortBySensorId
      (fun pair => !unusable (cache.GetSensor pair.2.m_sensorId now)) self.m_messages
    have hany : ((sortBySensorId self.m_messages).filter
        (fun pair => !unusable (cache.GetSensor pair.2.m_sensorId now))).any
          (raises env (fun id => cache.GetSensor id now))
        = (sortBySensorId self.m_messages).any (raises env (fun id => cache.GetSensor id now)) := by
      induction sortBySensorId self.m_messages with
      | nil => rfl
      | cons a t ih =>
        cases hr : raises env (fun id => cache.GetSensor id now) a
        · cases hu : unusable (cache.GetSensor a.2.m_sensorId now) <;>
            simp [List.filter_cons, hu, hr, ih]
        · have hu : unusable (cache.GetSensor a.2.m_sensorId now) = false :=
            raises_usable env (fun id => cache.GetSensor id now) a hr
          simp [List.filter_cons, hu, hr]
    have hfil : ((sortBySensorId self.m_messages).filter
        (fun pair => !unusable (cache.GetSensor pair.2.m_sensorId now))).filter
          (passes env (fun id => cache.GetSensor id now))
        = (sortBySensorId self.m_messages).filter
          (passes env (fun id => cache.GetSensor id now)) := by
      induction sortBySensorId self.m_messages with
      | nil => rfl
      | cons a t ih =>
        cases hp : passes env (fun id => cache.GetSensor id now) a
        · cases hu : unusable (cache.GetSensor a.2.m_sensorId now) <;>
            simp [List.filter_cons, hu, hp, ih]
        · have hu : unusable (cache.GetSensor a.2.m_sensorId now) = false :=
            passes_usable env (fun id => cache.GetSensor id now) a hp
          simp [List.filter_cons, hu, hp, ih]
    have hbatch : authorizedBatch env cache now (self.m_messages.filter
        (fun pair => !unusable (cache.GetSensor pair.2.m_sensorId now)))
        = authorizedBatch env cache now self.m_messages := by
      unfold authorizedBatch
      rw [← hsort, hfil]
    rw [Process_eq, Process_eq]
    simp only [hbatch, ← hsort, hany]

/-- Witness of C3: a buffer with an entry of an unknown sensor next to an
authorized one. -/
theorem Process_skips_unusable_witness :
    (∀ pair ∈ [strangerPair, plainPair],
      unusable (sampleCache.GetSensor pair.2.m_sensorId 1) = true →
      ∀ topic batch, (topic, batch) ∈ (MessageConsumer.Process scenarioEnv sampleCache 1
          { m_messages := [strangerPair, plainPair] }).published →
        pair.2 ∉ batch) ∧
    MessageConsumer.Process scenarioEnv sampleCache 1
      { m_messages := [strangerPair, plainPair].filter
          (fun pair => !unusable (sampleCache.GetSensor pair.2.m_sensorId 1)) }
      = MessageConsumer.Process scenarioEnv sampleCache 1
          { m_messages := [strangerPair, plainPair] } :=
  Process_skips_unusable scenarioEnv sampleCache 1 { m_messages := [strangerPair, plainPair] }

/-- The authorized batch holds the messages of the entries that pass, each
once. -/
theorem authorizedBatch_perm (env : ConsumerEnv) (cache : DataCache) (now : TimePoint)
    (buffer : List MessagePair) :
    (authorizedBatch env cache now buffer).Perm
      ((buffer.filter (passes env (fun id => cache.GetSensor id now))).map Prod.snd) :=
  ((sortBySensorId_perm buffer).filter _).map _

/-- The authorized batch has as many messages as entries pass. -/
theorem authorizedBatch_length (env : ConsumerEnv) (cache : DataCache) (now : TimePoint)
    (buffer : List MessagePair) :
    (authorizedBatch env cache now buffer).length
      = buffer.countP (passes env (fun id => cache.GetSensor id now)) := by
  rw [(authorizedBatch_perm env cache now buffer).length_eq, List.length_map,
    List.countP_eq_length_filter]

/-- C4 (as amended). When no `ValidateMessage` call of the walk raises:
the published batch holds exactly the messages of the drained entries whose
lookup is `(true, some sensor)` and that pass `ValidateMessage`, their number
being `n`; with `n = 0` `Process` returns 0 and publishes nothing; with `n ≥ 1`
and a broker that takes the publish it returns `n` and publishes exactly that
one batch on the bulk message topic; with `n ≥ 1` and a broker that refuses
the publish it leaves by the exception, with no count and nothing published. -/
theorem Process_count (env : ConsumerEnv) (cache : DataCache) (now : TimePoint)
    (self : MessageConsumer)
    (hno : ∀ pair ∈ self.m_messages,
      raises env (fun id => cache.GetSensor id now) pair = false) :
    (authorizedBatch env cache now self.m_messages).Perm
      ((self.m_messages.filter (passes env (fun id => cache.GetSensor id now))).map Prod.snd) ∧
    (self.m_messages.countP (passes env (fun id => cache.GetSensor id now)) = 0 →
      (MessageConsumer.Process env cache now self).result = some 0 ∧
      (MessageConsumer.Process env cache now self).published = []) ∧
    (0 < self.m_messages.countP (passes env (fun id => cache.GetSensor id now)) →
      env.accepts env.BulkMessageTopic (authorizedBatch env cache now self.m_messages) = true →
      (MessageConsumer.Process env cache now self).result
        = some (self.m_messages.countP (passes env (fun id => cache.GetSensor id now))) ∧
      (MessageConsumer.Process env cache now self).published
        = [(env.BulkMessageTopic, authorizedBatch env cache now self.m_messages)]) ∧
    (0 < self.m_messages.countP (passes env (fun id => cache.GetSensor id now)) →
      env.accepts env.BulkMessageTopic (authorizedBatch env cache now self.m_messages) = false →
      (MessageConsumer.Process env cache now self).result = none ∧
      (MessageConsumer.Process env cache now self).published = []) := by
  have hany : (sortBySensorId self.m_messages).any
      (raises env (fun id => cache.GetSensor id now)) = false := by
    rw [List.any_eq_false]
    intro pair hpair
    rw [hno pair ((sortBySensorId_perm self.m_messages).mem_iff.mp hpair)]
    decide
  have hlen := authorizedBatch_length env cache now self.m_messages
  have hempty : (authorizedBatch env cache now self.m_messages).isEmpty = true ↔
      self.m_messages.countP (passes env (fun id => cache.GetSensor id now)) = 0 := by
    rw [← hlen, List.isEmpty_iff, List.length_eq_zero]
  refine ⟨authorizedBatch_perm env cache now self.m_messages, ?_, ?_, ?_⟩
  · intro hzero
    rw [Process_eq]
    simp only [hany, hempty.mpr hzero]
    exact ⟨rfl, rfl⟩
  · intro hpos hacc
    have hne : ¬ (authorizedBatch env cache now self.m_messages).isEmpty = true :=
      fun h => absurd (hempty.mp h) (by omega)
    rw [Process_eq]
    simp only [hany, hne, hacc, hlen]
    exact ⟨rfl, rfl⟩
  · intro hpos hacc
    have hne : ¬ (authorizedBatch env cache now self.m_messages).isEmpty = true :=
      fun h => absurd (hempty.mp h) (by omega)
    rw [Process_eq]
    simp only [hany, hne, hacc]
    exact ⟨rfl, rfl⟩

/-- Witness of C4: a buffer with an authorized entry and an entry of an
unknown sensor; no validation raises. -/
theorem Process_count_witness :
    (∀ pair ∈ [strangerPair, plainPair],
      raises scenarioEnv (fun id => sampleCache.GetSensor id 1) pair = false) ∧
    ((authorizedBatch scenarioEnv sampleCache 1 [strangerPair, plainPair]).Perm
      (([strangerPair, plainPair].filter (passes scenarioEnv (fun id => sampleCache.GetSensor id 1))).map Prod.snd) ∧
    ([strangerPair, plainPair].countP (passes scenarioEnv (fun id => sampleCache.GetSensor id 1)) = 0 →
      (MessageConsumer.Process scenarioEnv sampleCache 1
        { m_messages := [strangerPair, plainPair] }).result = some 0 ∧
      (MessageConsumer.Process scenarioEnv sampleCache 1
        { m_messages := [strangerPair, plainPair] }).published = []) ∧
    (0 < [strangerPair, plainPair].countP (passes scenarioEnv (fun id => sampleCache.GetSensor id 1)) →
      scenarioEnv.accepts scenarioEnv.BulkMessageTopic (authorizedBatch scenarioEnv sampleCache 1 [strangerPair, plainPair]) = true →
      (MessageConsumer.Process scenarioEnv sampleCache 1
        { m_messages := [strangerPair, plainPair] }).result
        = some ([strangerPair, plainPair].countP (passes scenarioEnv (fun id => sampleCache.GetSensor id 1))) ∧
      (MessageConsumer.Process scenarioEnv sampleCache 1
        { m_messages := [strangerPair, plainPair] }).published
        = [(scenarioEnv.BulkMessageTopic, authorizedBatch scenarioEnv sampleCache 1 [strangerPair, plainPair])]) ∧
    (0 < [strangerPair, plainPair].countP (passes scenarioEnv (fun id => sampleCache.GetSensor id 1)) →
      scenarioEnv.accepts scenarioEnv.BulkMessageTopic (authorizedBatch scenarioEnv sampleCache 1 [strangerPair, plainPair]) = false →
      (MessageConsumer.Process scenarioEnv sampleCache 1
        { m_messages := [strangerPair, plainPair] }).result = none ∧
      (MessageConsumer.Process scenarioEnv sampleCache 1
        { m_messages := [strangerPair, plainPair] }).published = [])) :=
  ⟨by decide,
    Process_count scenarioEnv sampleCache 1 { m_messages := [strangerPair, plainPair] }
      (by decide)⟩

/-- The outcome of the tick of the witness of C4, evaluated: one batch with the
authorized message, and the count 1. -/
theorem Process_count_sample :
    MessageConsumer.Process scenarioEnv sampleCache 1 { m_messages := [strangerPair, plainPair] }
      = { consumer := { m_messages := [] }
          published := [("internal/bulk/messages", [plainPair.2])]
          result := some 1 } := by
  decide

/-- Counterexample to C4 as stated: one drained entry passes, so the claim
has `Process` return 1 and publish one batch; the broker refuses the publish,
`PublishAuthorizedMessages` raises, and `Process` returns no count and nothing
is published. -/
theorem Process_refused_publish :
    [plainPair].countP (passes refusingEnv (fun id => sampleCache.GetSensor id 1)) = 1 ∧
    (MessageConsumer.Process refusingEnv sampleCache 1 { m_messages := [plainPair] }).result
      = none ∧
    (MessageConsumer.Process refusingEnv sampleCache 1 { m_messages := [plainPair] }).published
      = [] := by
  decide

/-- C5. The buffer is empty after `Process`; at most one batch is published;
and a published batch is a subsequence of the messages of a rearrangement of
the drained buffer whose sensor ids do not decrease, so the batch itself is
ordered by sensor id and each buffered entry contributes at most one of its
items. -/
theorem Process_sorted_subsequence (env : ConsumerEnv) (cache : DataCache) (now : TimePoint)
    (self : MessageConsumer) :
    (MessageConsumer.Process env cache now self).consumer.m_messages = [] ∧
    (MessageConsumer.Process env cache now self).published.length ≤ 1 ∧
    ∀ topic batch, (topic, batch) ∈ (MessageConsumer.Process env cache now self).published →
      ∃ sorted : List MessagePair,
        sorted.Perm self.m_messages ∧
        sorted.Pairwise (fun x y => x.2.m_sensorId ≤ y.2.m_sensorId) ∧
        batch.Sublist (sorted.map Prod.snd) ∧
        batch.Pairwise (fun x y => x.m_sensorId ≤ y.m_sensorId) := by
  refine ⟨Process_drains env cache now self, ?_, ?_⟩
  · rcases Process_published env cache now self with h | h <;> rw [h] <;> simp
  · intro topic batch hpub
    have hbatch : batch = authorizedBatch env cache now self.m_messages := by
      rcases Process_published env cache now self with h | h
      · rw [h] at hpub
        exact absurd hpub (List.not_mem_nil _)
      · rw [h] at hpub
        exact (Prod.mk.inj (List.mem_singleton.mp hpub)).2
    have hsorted : (sortBySensorId self.m_messages).Pairwise
        (fun x y => x.2.m_sensorId ≤ y.2.m_sensorId) :=
      (sortBySensorId_sorted self.m_messages).imp (fun {x y} h => (inOrder_iff x y).mp h)
    have hsub : batch.Sublist ((sortBySensorId self.m_messages).map Prod.snd) := by
      rw [hbatch]
      exact (List.filter_sublist _).map _
    refine ⟨sortBySensorId self.m_messages, sortBySensorId_perm _, hsorted, hsub, ?_⟩
    exact (List.Pairwise.map Prod.snd (fun _ _ h => h) hsorted).sublist hsub

/-! ## to_protobuf -/

/-- The datapoint `to_protobuf` writes is the one the spec's note describes. -/
theorem add_datapoint_eq (dp : DataPoint) : add_datapoint dp = claimedDatapoint dp := by
  cases dp with
  | mk value unit accuracy precision =>
    cases accuracy <;> cases precision <;> rfl

/-- C10. The container that `to_protobuf` fills and serializes has one record
per input measurement, in input order, each with one datapoint per input
datapoint, in order; in every outbound datapoint value and unit are copied,
the accuracy field is the precision when a precision is present, otherwise
the accuracy when one is present, otherwise unset, and the precision field is
unset; in particular a datapoint with both gets the precision in its accuracy
field. `to_protobuf` returns the encoding of exactly that container whenever
the encoding has at most `INT_MAX` bytes, and throws otherwise; the last
part gives every field of every record. -/
theorem to_protobuf_datapoints (now : String) (value : List Measurement) :
    (buildMeasurementData now value).measurements.length = value.length ∧
    (buildMeasurementData now value).measurements.map (fun r => r.datapoints)
      = value.map (fun entry => entry.m_data.map claimedDatapoint) ∧
    (∀ (dp : DataPoint) (accuracy precision : Double),
      dp.m_accuracy = some accuracy → dp.m_precision = some precision →
      (add_datapoint dp).accuracy = some precision) ∧
    (∀ dp : DataPoint, (add_datapoint dp).precision = none ∧
      (add_datapoint dp).value = dp.m_value ∧ (add_datapoint dp).unit = dp.m_unit) ∧
    (∀ (serialize : MeasurementData → List Nat) (bytes : List Nat),
      to_protobuf serialize now value = some bytes →
      bytes = serialize (buildMeasurementData now value)) ∧
    (∀ serialize : MeasurementData → List Nat,
      (serialize (buildMeasurementData now value)).length ≤ INT_MAX →
      to_protobuf serialize now value = some (serialize (buildMeasurementData now value))) ∧
    (∀ serialize : MeasurementData → List Nat,
      INT_MAX < (serialize (buildMeasurementData now value)).length →
      to_protobuf serialize now value = none) ∧
    (buildMeasurementData now value).measurements
      = value.map (fun entry =>
          { datapoints := entry.m_data.map claimedDatapoint
            latitude := entry.m_coordinates.1
            longitude := entry.m_coordinates.2
            timestamp := if entry.m_createdAt.isEmpty then now else entry.m_createdAt
            platformtime := now }) := by
  refine ⟨?_, ?_, ?_, ?_, ?_, ?_, ?_, ?_⟩
  · simp [buildMeasurementData]
  · simp only [buildMeasurementData, List.map_map]
    apply List.map_congr_left
    intro entry _
    simp only [Function.comp, add_measurement]
    apply List.map_congr_left
    intro dp _
    exact add_datapoint_eq dp
  · intro dp accuracy precision ha hp
    rw [add_datapoint_eq]
    simp [claimedDatapoint, ha, hp]
  · intro dp
    rw [add_datapoint_eq]
    exact ⟨rfl, rfl, rfl⟩
  · intro serialize bytes h
    unfold to_protobuf at h
    simp only at h
    split at h
    · exact absurd h (by simp)
    · exact (Option.some.inj h).symm
  · intro serialize hfits
    have hnot : ¬ (serialize (buildMeasurementData now value)).length > INT_MAX := by omega
    simp only [to_protobuf, if_neg hnot]
  · intro serialize hlong
    simp only [to_protobuf, if_pos hlong]
  · simp only [buildMeasurementData]
    apply List.map_congr_left
    intro entry _
    simp only [add_measurement]
    congr 1
    apply List.map_congr_left
    intro dp _
    exact add_datapoint_eq dp

/-- Witness of C10: the sample measurement, whose datapoint has accuracy 5 and
precision 9, is written with 9 in the accuracy field and no precision, and
`to_protobuf` returns the encoding of that container (here with an encoder
that lists, per record, the accuracy fields of its datapoints). -/
theorem to_protobuf_datapoints_witness :
    (sampleEncoder (buildMeasurementData "2020-01-01T00:00:00Z" [sampleMeasurement])).length
      ≤ INT_MAX ∧
    to_protobuf sampleEncoder "2020-01-01T00:00:00Z" [sampleMeasurement] = some [9] ∧
    to_protobuf sampleEncoder "2020-01-01T00:00:00Z" [sampleMeasurement]
      = some (sampleEncoder (buildMeasurementData "2020-01-01T00:00:00Z" [sampleMeasurement])) ∧
    (buildMeasurementData "2020-01-01T00:00:00Z" [sampleMeasurement]).measurements
      = [{ datapoints := [{ value := 21, unit := "C", accuracy := some 9, precision := none }]
           latitude := 51
           longitude := 4
           timestamp := "2020-01-01T00:00:00Z"
           platformtime := "2020-01-01T00:00:00Z" }] ∧
    (buildMeasurementData "2020-01-01T00:00:00Z" [sampleMeasurement]).measurements.map
        (fun r => r.datapoints)
      = [sampleMeasurement].map (fun entry => entry.m_data.map claimedDatapoint) :=
  ⟨by decide, by decide,
    (to_protobuf_datapoints "2020-01-01T00:00:00Z" [sampleMeasurement]).2.2.2.2.2.1
      sampleEncoder (by decide),
    by decide, (to_protobuf_datapoints "2020-01-01T00:00:00Z" [sampleMeasurement]).2.1⟩

/-! ## MessageService: ingress -/

/-- Rewriting one element keeps the length of the vector. -/
theorem length_updateAt {α : Type} (f : α → α) :
    ∀ (idx : Nat) (l : List α), (updateAt f idx l).length = l.length := by
  intro idx l
  induction l generalizing idx with
  | nil => cases idx <;> rfl
  | cons a rest ih =>
    cases idx with
    | zero => rfl
    | succ k => simp [updateAt, ih k]

/-- Rewriting the element at `idx` changes that element and no other. -/
theorem getElem?_updateAt {α : Type} (f : α → α) :
    ∀ (idx : Nat) (l : List α) (j : Nat),
      (updateAt f idx l)[j]? = if j = idx then l[j]?.map f else l[j]? := by
  intro idx l
  induction l generalizing idx with
  | nil => intro j; cases idx <;> simp [updateAt]
  | cons a rest ih =>
    intro j
    cases idx with
    | zero =>
      cases j with
      | zero => simp [updateAt]
      | succ k => simp [updateAt]
    | succ i =>
      cases j with
      | zero => simp [updateAt]
      | succ k => simp [updateAt, ih i k]

/-- The shard tasks keep the number of handlers of both kinds. -/
theorem runShards_length (env : TickEnv) (cache : DataCache) :
    ∀ (measurementHandlers : List MeasurementConsumer) (idx : Nat)
      (messageHandlers : List MessageConsumer),
      (runShards env cache idx measurementHandlers messageHandlers).1.1.length
        = measurementHandlers.length ∧
      (runShards env cache idx measurementHandlers messageHandlers).1.2.length
        = messageHandlers.length := by
  intro measurementHandlers
  induction measurementHandlers with
  | nil => intro idx messageHandlers; simp [runShards]
  | cons a rest ih =>
    intro idx messageHandlers
    cases messageHandlers with
    | nil => simp [runShards]
    | cons b more =>
      have h := ih (idx + 1) more
      simp [runShards, h.1, h.2]

/-- A command writes the cache and nothing else of the service. -/
theorem runCommand_frame (env : TickEnv) (self : MessageService) (command : Command) :
    (self.runCommand env command).1
      = { self with m_cache := (self.runCommand env command).1.m_cache } := by
  cases command
  · rfl
  · rfl
  · rfl
  · simp only [MessageService.runCommand, MessageService.AddUser]
    cases env.GetUserById _ <;> rfl
  · simp only [MessageService.runCommand, MessageService.AddSensor]
    cases env.GetSensorById _ <;> rfl
  · simp only [MessageService.runCommand, MessageService.AddKey]
    cases env.GetSensorKey _ <;> rfl

/-- A run of commands writes the cache and nothing else of the service. -/
theorem foldl_frame (env : TickEnv) (commands : List Command)
    (acc : MessageService × List TargetedFetch) :
    (commands.foldl
      (fun acc command =>
        let done := acc.1.runCommand env command
        (done.1, acc.2 ++ done.2))
      acc).1
      = { acc.1 with
          m_cache :=
            (commands.foldl
              (fun acc command =>
                let done := acc.1.runCommand env command
                (done.1, acc.2 ++ done.2))
              acc).1.m_cache } := by
  induction commands generalizing acc with
  | nil => rfl
  | cons command rest ih =>
    rw [List.foldl_cons]
    have h := ih ((acc.1.runCommand env command).1, acc.2 ++ (acc.1.runCommand env command).2)
    have hc := runCommand_frame env acc.1 command
    rw [h]
    simp only
    rw [hc]

/-- The drain of the command consumer writes the cache and nothing else of the
service. -/
theorem Execute_frame (env : TickEnv) (self : MessageService) :
    (self.Execute env).1 = { self with m_cache := (self.Execute env).1.m_cache } :=
  foldl_frame env env.commands (self, [])

/-- The drain leaves the counter of the measurement shards. -/
@[simp]
theorem Execute_measurementIndex (env : TickEnv) (self : MessageService) :
    (self.Execute env).1.m_measurementIndex = self.m_measurementIndex := by
  rw [Execute_frame]

/-- The drain leaves the counter of the message shards. -/
@[simp]
theorem Execute_messageIndex (env : TickEnv) (self : MessageService) :
    (self.Execute env).1.m_messageIndex = self.m_messageIndex := by
  rw [Execute_frame]

/-- The drain leaves the measurement handlers. -/
@[simp]
theorem Execute_measurementHandlers (env : TickEnv) (self : MessageService) :
    (self.Execute env).1.m_measurementHandlers = self.m_measurementHandlers := by
  rw [Execute_frame]

/-- The drain leaves the message handlers. -/
@[simp]
theorem Execute_messageHandlers (env : TickEnv) (self : MessageService) :
    (self.Execute env).1.m_messageHandlers = self.m_messageHandlers := by
  rw [Execute_frame]

/-- The drain leaves the instant of the last reload. -/
@[simp]
theorem Execute_lastReload (env : TickEnv) (self : MessageService) :
    (self.Execute env).1.m_lastReload = self.m_lastReload := by
  rw [Execute_frame]

/-- The drain leaves the pending-work counter. -/
@[simp]
theorem Execute_count (env : TickEnv) (self : MessageService) :
    (self.Execute env).1.m_count = self.m_count := by
  rw [Execute_frame]

/-- What the part of a tick after the reload leaves untouched: the two shard
counters, the numbers of handlers, the reload instant and the pending-work
counter. -/
theorem afterReload_frame (env : TickEnv) (count : Nat) (self : MessageService) :
    (self.afterReload env count).service.m_measurementIndex = self.m_measurementIndex ∧
    (self.afterReload env count).service.m_messageIndex = self.m_messageIndex ∧
    (self.afterReload env count).service.m_measurementHandlers.length
      = self.m_measurementHandlers.length ∧
    (self.afterReload env count).service.m_messageHandlers.length
      = self.m_messageHandlers.length ∧
    (self.afterReload env count).service.m_lastReload = self.m_lastReload ∧
    (self.afterReload env count).service.m_count = self.m_count := by
  have hlen := runShards_length env self.m_cache self.m_measurementHandlers 0
    self.m_messageHandlers
  unfold MessageService.afterReload
  split
  · simp [MessageService.cleanupAndExecute]
  · simp [MessageService.cleanupAndExecute, MessageService.RawProcess, hlen.1, hlen.2]

/-- A successful `LoadAll` changes the cache and nothing else. -/
theorem LoadAll_frame (env : TickEnv) (self loaded : MessageService)
    (h : (self.LoadAll env).1 = some loaded) :
    loaded = { self with m_cache := loaded.m_cache } := by
  unfold MessageService.LoadAll at h
  cases hs : env.GetAllSensors with
  | none => simp [hs] at h
  | some sensors =>
    cases hk : env.GetAllSensorKeys with
    | none => simp [hs, hk] at h
    | some keys =>
      cases hu : env.GetAllUsers with
      | none => simp [hs, hk, hu] at h
      | some users =>
        simp only [hs, hk, hu, Option.some.injEq] at h
        rw [← h]

/-- What a tick leaves untouched or resets: the two shard counters and the
numbers of handlers are kept, the pending-work counter is 0 afterwards. -/
theorem Process_frame (env : TickEnv) (self : MessageService) :
    (self.Process env).service.m_measurementIndex = self.m_measurementIndex ∧
    (self.Process env).service.m_messageIndex = self.m_messageIndex ∧
    (self.Process env).service.m_measurementHandlers.length
      = self.m_measurementHandlers.length ∧
    (self.Process env).service.m_messageHandlers.length = self.m_messageHandlers.length ∧
    (self.Process env).service.m_count = 0 := by
  unfold MessageService.Process
  simp only
  split
  · split
    · simp
    · rename_i loaded hload
      have hframe := LoadAll_frame env _ loaded hload
      have hafter := afterReload_frame env self.m_count loaded
      rw [hframe] at hafter
      simp only at hafter
      rw [hframe]
      simp only
      exact ⟨hafter.1, hafter.2.1, hafter.2.2.1, hafter.2.2.2.1, hafter.2.2.2.2.2⟩
  · have hafter := afterReload_frame env self.m_count { self with m_count := 0 }
    exact ⟨hafter.1, hafter.2.1, hafter.2.2.1, hafter.2.2.2.1, hafter.2.2.2.2.2⟩

/-- One call moves each shard counter by one, modulo 256, exactly when it is an
ingress call of that kind that reaches its push, and keeps the numbers of
handlers. -/
theorem step_frame (v : String → Bool × Measurement) (self : MessageService) (c : Call) :
    (self.step v c).m_measurementIndex
      = (if c.advancesMeasurement v then (self.m_measurementIndex + 1) % UINT8_MODULUS
         else self.m_measurementIndex) ∧
    (self.step v c).m_messageIndex
      = (if c.advancesMessage then (self.m_messageIndex + 1) % UINT8_MODULUS
         else self.m_messageIndex) ∧
    (self.step v c).m_measurementHandlers.length = self.m_measurementHandlers.length ∧
    (self.step v c).m_messageHandlers.length = self.m_messageHandlers.length := by
  cases c with
  | AddMeasurementString msg =>
    cases hv : (v msg).1 <;>
      simp [MessageService.step, MessageService.AddMeasurementString,
        MessageService.AddMeasurement, Call.advancesMeasurement, Call.advancesMessage, hv,
        length_updateAt]
  | AddMeasurement measurement =>
    simp [MessageService.step, MessageService.AddMeasurement, Call.advancesMeasurement,
      Call.advancesMessage, length_updateAt]
  | AddMessage message =>
    simp [MessageService.step, MessageService.AddMessage, Call.advancesMeasurement,
      Call.advancesMessage, length_updateAt]
  | AddMeasurements measurements =>
    by_cases hlen : measurements.length > UINT_MAX
    · have hle : ¬ measurements.length ≤ UINT_MAX := by omega
      simp [MessageService.step, MessageService.AddMeasurements, Call.advancesMeasurement,
        Call.advancesMessage, hlen, hle]
    · have hle : measurements.length ≤ UINT_MAX := by omega
      simp [MessageService.step, MessageService.AddMeasurements, Call.advancesMeasurement,
        Call.advancesMessage, hlen, hle, length_updateAt]
  | AddMessages messages =>
    by_cases hlen : messages.length > UINT_MAX
    · have hle : ¬ messages.length ≤ UINT_MAX := by omega
      simp [MessageService.step, MessageService.AddMessages, Call.advancesMeasurement,
        Call.advancesMessage, hlen, hle]
    · have hle : messages.length ≤ UINT_MAX := by omega
      simp [MessageService.step, MessageService.AddMessages, Call.advancesMeasurement,
        Call.advancesMessage, hlen, hle, length_updateAt]
  | Process env =>
    have h := Process_frame env self
    simp [MessageService.step, Call.advancesMeasurement, Call.advancesMessage, h.1, h.2.1,
      h.2.2.1, h.2.2.2.1]

/-- After a sequence of calls each shard counter has advanced, modulo 256, by
the number of ingress calls of its kind that reached their push, and the
numbers of handlers are as before. -/
theorem run_frame (v : String → Bool × Measurement) :
    ∀ (calls : List Call) (self : MessageService),
      self.m_measurementIndex < UINT8_MODULUS → self.m_messageIndex < UINT8_MODULUS →
      (self.run v calls).m_measurementIndex
        = (self.m_measurementIndex + calls.countP (Call.advancesMeasurement v)) % UINT8_MODULUS ∧
      (self.run v calls).m_messageIndex
        = (self.m_messageIndex + calls.countP Call.advancesMessage) % UINT8_MODULUS ∧
      (self.run v calls).m_measurementHandlers.length = self.m_measurementHandlers.length ∧
      (self.run v calls).m_messageHandlers.length = self.m_messageHandlers.length := by
  intro calls
  induction calls with
  | nil =>
    intro self h1 h2
    have hrun : self.run v [] = self := rfl
    rw [hrun, List.countP_nil, List.countP_nil, Nat.add_zero, Nat.add_zero]
    exact ⟨(Nat.mod_eq_of_lt h1).symm, (Nat.mod_eq_of_lt h2).symm, rfl, rfl⟩
  | cons c rest ih =>
    intro self h1 h2
    have hstep := step_frame v self c
    have hrun : self.run v (c :: rest) = (self.step v c).run v rest := rfl
    have hlt : ∀ x : Nat, (x + 1) % UINT8_MODULUS < UINT8_MODULUS :=
      fun x => Nat.mod_lt _ (by decide)
    have h1' : (self.step v c).m_measurementIndex < UINT8_MODULUS := by
      rw [hstep.1]; split
      · exact hlt _
      · exact h1
    have h2' : (self.step v c).m_messageIndex < UINT8_MODULUS := by
      rw [hstep.2.1]; split
      · exact hlt _
      · exact h2
    have hrest := ih (self.step v c) h1' h2'
    rw [hrun, hrest.1, hrest.2.1, hrest.2.2.1, hrest.2.2.2, hstep.1, hstep.2.1, hstep.2.2.1,
      hstep.2.2.2, List.countP_cons, List.countP_cons]
    refine ⟨?_, ?_, rfl, rfl⟩
    · cases Call.advancesMeasurement v c
      · simp
      · simp only [if_true, UINT8_MODULUS]
        omega
    · cases Call.advancesMessage c
      · simp
      · simp only [if_true, UINT8_MODULUS]
        omega

/-- The shard counters and handlers of a service run from its construction. -/
theorem run_create (v : String → Bool × Measurement) (workers : Nat) (now : TimePoint)
    (calls : List Call) :
    ((MessageService.create workers now).run v calls).m_measurementIndex
      = calls.countP (Call.advancesMeasurement v) % UINT8_MODULUS ∧
    ((MessageService.create workers now).run v calls).m_messageIndex
      = calls.countP Call.advancesMessage % UINT8_MODULUS ∧
    ((MessageService.create workers now).run v calls).m_measurementHandlers.length = workers ∧
    ((MessageService.create workers now).run v calls).m_messageHandlers.length = workers := by
  have h := run_frame v calls (MessageService.create workers now)
    (by simp [MessageService.create, UINT8_MODULUS])
    (by simp [MessageService.create, UINT8_MODULUS])
  simp only [MessageService.create, Nat.zero_add, List.length_replicate] at h
  exact h

/-- C6 (as amended). In a service constructed with `workers ≥ 1` handlers and
run through any sequence of calls, let `n` be the number of earlier
measurement ingress calls that reached their push and `m` that of the message
ingress calls. The next `AddMeasurement` or (not oversize) `AddMeasurements`
pushes to shard `(n mod 256) mod workers` and to no other, the next
`AddMessage` or (not oversize) `AddMessages` to shard `(m mod 256) mod
workers`; both indices are below `workers`; and a call of one kind leaves the
counter and the buffers of the other kind as they are. -/
theorem round_robin (workers : Nat) (hw : 1 ≤ workers) (v : String → Bool × Measurement)
    (now : TimePoint) (calls : List Call) (p : MeasurementPair) (ps : List MeasurementPair)
    (q : MessagePair) (qs : List MessagePair) :
    (∀ j : Nat,
      (((MessageService.create workers now).run v calls).AddMeasurement p).m_measurementHandlers[j]?
        = if j = calls.countP (Call.advancesMeasurement v) % 256 % workers then
            (((MessageService.create workers now).run v calls).m_measurementHandlers[j]?).map
              (fun repo => repo.PushMessage p)
          else ((MessageService.create workers now).run v calls).m_measurementHandlers[j]?) ∧
    (ps.length ≤ UINT_MAX → ∀ j : Nat,
      (((MessageService.create workers now).run v calls).AddMeasurements ps).m_measurementHandlers[j]?
        = if j = calls.countP (Call.advancesMeasurement v) % 256 % workers then
            (((MessageService.create workers now).run v calls).m_measurementHandlers[j]?).map
              (fun repo => repo.PushMessages ps)
          else ((MessageService.create workers now).run v calls).m_measurementHandlers[j]?) ∧
    (∀ j : Nat,
      (((MessageService.create workers now).run v calls).AddMessage q).m_messageHandlers[j]?
        = if j = calls.countP Call.advancesMessage % 256 % workers then
            (((MessageService.create workers now).run v calls).m_messageHandlers[j]?).map
              (fun repo => repo.PushMessage q)
          else ((MessageService.create workers now).run v calls).m_messageHandlers[j]?) ∧
    (qs.length ≤ UINT_MAX → ∀ j : Nat,
      (((MessageService.create workers now).run v calls).AddMessages qs).m_messageHandlers[j]?
        = if j = calls.countP Call.advancesMessage % 256 % workers then
            (((MessageService.create workers now).run v calls).m_messageHandlers[j]?).map
              (fun repo => repo.PushMessages qs)
          else ((MessageService.create workers now).run v calls).m_messageHandlers[j]?) ∧
    calls.countP (Call.advancesMeasurement v) % 256 % workers
      < ((MessageService.create workers now).run v calls).m_measurementHandlers.length ∧
    calls.countP Call.advancesMessage % 256 % workers
      < ((MessageService.create workers now).run v calls).m_messageHandlers.length ∧
    ((MessageService.create workers now).run v calls).m_measurementHandlers.length = workers ∧
    ((MessageService.create workers now).run v calls).m_messageHandlers.length = workers ∧
    (((MessageService.create workers now).run v calls).AddMeasurement p).m_messageIndex
      = ((MessageService.create workers now).run v calls).m_messageIndex ∧
    (((MessageService.create workers now).run v calls).AddMeasurement p).m_messageHandlers
      = ((MessageService.create workers now).run v calls).m_messageHandlers ∧
    (((MessageService.create workers now).run v calls).AddMeasurements ps).m_messageIndex
      = ((MessageService.create workers now).run v calls).m_messageIndex ∧
    (((MessageService.create workers now).run v calls).AddMeasurements ps).m_messageHandlers
      = ((MessageService.create workers now).run v calls).m_messageHandlers ∧
    (((MessageService.create workers now).run v calls).AddMessage q).m_measurementIndex
      = ((MessageService.create workers now).run v calls).m_measurementIndex ∧
    (((MessageService.create workers now).run v calls).AddMessage q).m_measurementHandlers
      = ((MessageService.create workers now).run v calls).m_measurementHandlers ∧
    (((MessageService.create workers now).run v calls).AddMessages qs).m_measurementIndex
      = ((MessageService.create workers now).run v calls).m_measurementIndex ∧
    (((MessageService.create workers now).run v calls).AddMessages qs).m_measurementHandlers
      = ((MessageService.create workers now).run v calls).m_measurementHandlers := by
  have hrun := run_create v workers now calls
  generalize (MessageService.create workers now).run v calls = s at hrun ⊢
  obtain ⟨h1, h2, h3, h4⟩ := hrun
  have hpos : 0 < workers := hw
  refine ⟨?_, ?_, ?_, ?_, ?_, ?_, h3, h4, rfl, rfl, ?_, ?_, rfl, rfl, ?_, ?_⟩
  · intro j
    simp only [MessageService.AddMeasurement, getElem?_updateAt, h1, h3, UINT8_MODULUS]
    rfl
  · intro hlen j
    have hguard : ¬ ps.length > UINT_MAX := by omega
    simp only [MessageService.AddMeasurements, hguard, if_false, getElem?_updateAt, h1, h3,
      UINT8_MODULUS]
    rfl
  · intro j
    simp only [MessageService.AddMessage, getElem?_updateAt, h2, h4, UINT8_MODULUS]
    rfl
  · intro hlen j
    have hguard : ¬ qs.length > UINT_MAX := by omega
    simp only [MessageService.AddMessages, hguard, if_false, getElem?_updateAt, h2, h4,
      UINT8_MODULUS]
    rfl
  · rw [h3]; exact Nat.mod_lt _ hpos
  · rw [h4]; exact Nat.mod_lt _ hpos
  · unfold MessageService.AddMeasurements; split <;> rfl
  · unfold MessageService.AddMeasurements; split <;> rfl
  · unfold MessageService.AddMessages; split <;> rfl
  · unfold MessageService.AddMessages; split <;> rfl

set_option maxRecDepth 100000 in
/-- Counterexample to C6 as stated, with three workers: after 256 calls of
`AddMeasurement` the buffers hold 86, 85 and 85 entries, and the 257th call
(`n = 256`) pushes to shard 0, whereas `256 mod 3 = 1`. -/
theorem round_robin_wraps :
    256 % 3 = 1 ∧
    (((MessageService.create 3 0).run rejectAll
        (List.replicate 256 (Call.AddMeasurement measurementPair))).m_measurementHandlers.map
          (fun h => h.m_messages.length)) = [86, 85, 85] ∧
    ((((MessageService.create 3 0).run rejectAll
        (List.replicate 256 (Call.AddMeasurement measurementPair))).AddMeasurement
          measurementPair).m_measurementHandlers.map (fun h => h.m_messages.length))
      = [87, 85, 85] := by
  decide

/-- Witness of C6: three workers and a short sequence of calls. -/
theorem round_robin_witness :
    1 ≤ 3 ∧
    ((∀ j : Nat,
      (((MessageService.create 3 0).run rejectAll sampleCalls).AddMeasurement measurementPair).m_measurementHandlers[j]?
        = if j = sampleCalls.countP (Call.advancesMeasurement rejectAll) % 256 % 3 then
            (((MessageService.create 3 0).run rejectAll sampleCalls).m_measurementHandlers[j]?).map
              (fun repo => repo.PushMessage measurementPair)
          else ((MessageService.create 3 0).run rejectAll sampleCalls).m_measurementHandlers[j]?) ∧
    ([measurementPair].length ≤ UINT_MAX → ∀ j : Nat,
      (((MessageService.create 3 0).run rejectAll sampleCalls).AddMeasurements [measurementPair]).m_measurementHandlers[j]?
        = if j = sampleCalls.countP (Call.advancesMeasurement rejectAll) % 256 % 3 then
            (((MessageService.create 3 0).run rejectAll sampleCalls).m_measurementHandlers[j]?).map
              (fun repo => repo.PushMessages [measurementPair])
          else ((MessageService.create 3 0).run rejectAll sampleCalls).m_measurementHandlers[j]?) ∧
    (∀ j : Nat,
      (((MessageService.create 3 0).run rejectAll sampleCalls).AddMessage plainPair).m_messageHandlers[j]?
        = if j = sampleCalls.countP Call.advancesMessage % 256 % 3 then
            (((MessageService.create 3 0).run rejectAll sampleCalls).m_messageHandlers[j]?).map
              (fun repo => repo.PushMessage plainPair)
          else ((MessageService.create 3 0).run rejectAll sampleCalls).m_messageHandlers[j]?) ∧
    ([plainPair].length ≤ UINT_MAX → ∀ j : Nat,
      (((MessageService.create 3 0).run rejectAll sampleCalls).AddMessages [plainPair]).m_messageHandlers[j]?
        = if j = sampleCalls.countP Call.advancesMessage % 256 % 3 then
            (((MessageService.create 3 0).run rejectAll sampleCalls).m_messageHandlers[j]?).map
              (fun repo => repo.PushMessages [plainPair])
          else ((MessageService.create 3 0).run rejectAll sampleCalls).m_messageHandlers[j]?) ∧
    sampleCalls.countP (Call.advancesMeasurement rejectAll) % 256 % 3
      < ((MessageService.create 3 0).run rejectAll sampleCalls).m_measurementHandlers.length ∧
    sampleCalls.countP Call.advancesMessage % 256 % 3
      < ((MessageService.create 3 0).run rejectAll sampleCalls).m_messageHandlers.length ∧
    ((MessageService.create 3 0).run rejectAll sampleCalls).m_measurementHandlers.length = 3 ∧
    ((MessageService.create 3 0).run rejectAll sampleCalls).m_messageHandlers.length = 3 ∧
    (((MessageService.create 3 0).run rejectAll sampleCalls).AddMeasurement measurementPair).m_messageIndex
      = ((MessageService.create 3 0).run rejectAll sampleCalls).m_messageIndex ∧
    (((MessageService.create 3 0).run rejectAll sampleCalls).AddMeasurement measurementPair).m_messageHandlers
      = ((MessageService.create 3 0).run rejectAll sampleCalls).m_messageHandlers ∧
    (((MessageService.create 3 0).run rejectAll sampleCalls).AddMeasurements [measurementPair]).m_messageIndex
      = ((MessageService.create 3 0).run rejectAll sampleCalls).m_messageIndex ∧
    (((MessageService.create 3 0).run rejectAll sampleCalls).AddMeasurements [measurementPair]).m_messageHandlers
      = ((MessageService.create 3 0).run rejectAll sampleCalls).m_messageHandlers ∧
    (((MessageService.create 3 0).run rejectAll sampleCalls).AddMessage plainPair).m_measurementIndex
      = ((MessageService.create 3 0).run rejectAll sampleCalls).m_measurementIndex ∧
    (((MessageService.create 3 0).run rejectAll sampleCalls).AddMessage plainPair).m_measurementHandlers
      = ((MessageService.create 3 0).run rejectAll sampleCalls).m_measurementHandlers ∧
    (((MessageService.create 3 0).run rejectAll sampleCalls).AddMessages [plainPair]).m_measurementIndex
      = ((MessageService.create 3 0).run rejectAll sampleCalls).m_measurementIndex ∧
    (((MessageService.create 3 0).run rejectAll sampleCalls).AddMessages [plainPair]).m_measurementHandlers
      = ((MessageService.create 3 0).run rejectAll sampleCalls).m_measurementHandlers) :=
  ⟨by decide,
    round_robin 3 (by decide) rejectAll 0 sampleCalls measurementPair [measurementPair]
      plainPair [plainPair]⟩

/-- C7 (as amended). `AddMeasurements` and `AddMessages` drop a batch exactly
when it has more than `UINT_MAX = 2^32 − 1` items, and a dropped batch changes
nothing in the service. A batch that is not dropped is appended whole to the
buffer of one shard, no other buffer of its kind and nothing of the other
kind changes, and its size is added to the pending-work counter in one
addition of `unsigned int`, that is, modulo `2^32`. -/
theorem bulk_guard (self : MessageService) (measurements : List MeasurementPair)
    (messages : List MessagePair) :
    UINT_MAX = 2 ^ 32 - 1 ∧
    (UINT_MAX < measurements.length → self.AddMeasurements measurements = self) ∧
    (UINT_MAX < messages.length → self.AddMessages messages = self) ∧
    (measurements.length ≤ UINT_MAX → 0 < self.m_measurementHandlers.length →
      ∃ shard : Nat, shard < self.m_measurementHandlers.length ∧
        (∀ j : Nat, (self.AddMeasurements measurements).m_measurementHandlers[j]?
          = if j = shard then
              (self.m_measurementHandlers[j]?).map
                (fun repo => { m_messages := repo.m_messages ++ measurements })
            else self.m_measurementHandlers[j]?) ∧
        (self.AddMeasurements measurements).m_count
          = (self.m_count + measurements.length) % 2 ^ 32 ∧
        (self.AddMeasurements measurements).m_messageHandlers = self.m_messageHandlers ∧
        (self.AddMeasurements measurements).m_messageIndex = self.m_messageIndex) ∧
    (messages.length ≤ UINT_MAX → 0 < self.m_messageHandlers.length →
      ∃ shard : Nat, shard < self.m_messageHandlers.length ∧
        (∀ j : Nat, (self.AddMessages messages).m_messageHandlers[j]?
          = if j = shard then
              (self.m_messageHandlers[j]?).map
                (fun repo => { m_messages := repo.m_messages ++ messages })
            else self.m_messageHandlers[j]?) ∧
        (self.AddMessages messages).m_count = (self.m_count + messages.length) % 2 ^ 32 ∧
        (self.AddMessages messages).m_measurementHandlers = self.m_measurementHandlers ∧
        (self.AddMessages messages).m_measurementIndex = self.m_measurementIndex) := by
  refine ⟨rfl, ?_, ?_, ?_, ?_⟩
  · intro h
    simp only [MessageService.AddMeasurements, if_pos h]
  · intro h
    simp only [MessageService.AddMessages, if_pos h]
  · intro hlen hpos
    have hguard : ¬ measurements.length > UINT_MAX := by omega
    refine ⟨self.m_measurementIndex % self.m_measurementHandlers.length,
      Nat.mod_lt _ hpos, ?_, ?_, ?_, ?_⟩
    · intro j
      simp only [MessageService.AddMeasurements, hguard, if_false, getElem?_updateAt]
      rfl
    · simp only [MessageService.AddMeasurements, hguard, if_false, UINT_MODULUS]
      omega
    · simp only [MessageService.AddMeasurements, hguard, if_false]
    · simp only [MessageService.AddMeasurements, hguard, if_false]
  · intro hlen hpos
    have hguard : ¬ messages.length > UINT_MAX := by omega
    refine ⟨self.m_messageIndex % self.m_messageHandlers.length,
      Nat.mod_lt _ hpos, ?_, ?_, ?_, ?_⟩
    · intro j
      simp only [MessageService.AddMessages, hguard, if_false, getElem?_updateAt]
      rfl
    · simp only [MessageService.AddMessages, hguard, if_false, UINT_MODULUS]
      omega
    · simp only [MessageService.AddMessages, hguard, if_false]
    · simp only [MessageService.AddMessages, hguard, if_false]

/-- Witness of C7: two small batches added to the sample service. -/
theorem bulk_guard_witness :
    UINT_MAX = 2 ^ 32 - 1 ∧
    (UINT_MAX < [measurementPair].length → busyService.AddMeasurements [measurementPair] = busyService) ∧
    (UINT_MAX < [plainPair, strangerPair].length → busyService.AddMessages [plainPair, strangerPair] = busyService) ∧
    ([measurementPair].length ≤ UINT_MAX → 0 < busyService.m_measurementHandlers.length →
      ∃ shard : Nat, shard < busyService.m_measurementHandlers.length ∧
        (∀ j : Nat, (busyService.AddMeasurements [measurementPair]).m_measurementHandlers[j]?
          = if j = shard then
              (busyService.m_measurementHandlers[j]?).map
                (fun repo => { m_messages := repo.m_messages ++ [measurementPair] })
            else busyService.m_measurementHandlers[j]?) ∧
        (busyService.AddMeasurements [measurementPair]).m_count
          = (busyService.m_count + [measurementPair].length) % 2 ^ 32 ∧
        (busyService.AddMeasurements [measurementPair]).m_messageHandlers = busyService.m_messageHandlers ∧
        (busyService.AddMeasurements [measurementPair]).m_messageIndex = busyService.m_messageIndex) ∧
    ([plainPair, strangerPair].length ≤ UINT_MAX → 0 < busyService.m_messageHandlers.length →
      ∃ shard : Nat, shard < busyService.m_messageHandlers.length ∧
        (∀ j : Nat, (busyService.AddMessages [plainPair, strangerPair]).m_messageHandlers[j]?
          = if j = shard then
              (busyService.m_messageHandlers[j]?).map
                (fun repo => { m_messages := repo.m_messages ++ [plainPair, strangerPair] })
            else busyService.m_messageHandlers[j]?) ∧
        (busyService.AddMessages [plainPair, strangerPair]).m_count = (busyService.m_count + [plainPair, strangerPair].length) % 2 ^ 32 ∧
        (busyService.AddMessages [plainPair, strangerPair]).m_measurementHandlers = busyService.m_measurementHandlers ∧
        (busyService.AddMessages [plainPair, strangerPair]).m_measurementIndex = busyService.m_measurementIndex) :=
  bulk_guard busyService [measurementPair] [plainPair, strangerPair]

/-- Counterexample to C7 as stated: a batch of exactly `2^32` messages, which
is not more than `2^32` items, is dropped: the service is unchanged. -/
theorem bulk_guard_boundary :
    (List.replicate 4294967296 plainPair).length = 2 ^ 32 ∧
    (MessageService.create 1 0).AddMessages (List.replicate 4294967296 plainPair)
      = MessageService.create 1 0 := by
  have hlen : (List.replicate 4294967296 plainPair).length = 4294967296 :=
    List.length_replicate _ _
  refine ⟨by rw [hlen]; decide, ?_⟩
  have hguard : (List.replicate 4294967296 plainPair).length > UINT_MAX := by
    rw [hlen]; decide
  unfold MessageService.AddMessages
  exact if_pos hguard

/-! ## MessageService: the tick -/

/-- The publish events of the message kind hold no other kind of event. -/
theorem count_publishMessages (e : Event) (batches : List (String × List Message))
    (h : ∀ topic batch, e ≠ Event.PublishMessages topic batch) :
    (batches.map (fun b => Event.PublishMessages b.1 b.2)).count e = 0 := by
  rw [List.count_eq_zero]
  intro hmem
  rcases List.mem_map.mp hmem with ⟨b, _, hb⟩
  exact h b.1 b.2 hb.symm

/-- The publish events of the measurement kind hold no other kind of event. -/
theorem count_publishMeasurements (e : Event) (batches : List (String × List Measurement))
    (h : ∀ topic batch, e ≠ Event.PublishMeasurements topic batch) :
    (batches.map (fun b => Event.PublishMeasurements b.1 b.2)).count e = 0 := by
  rw [List.count_eq_zero]
  intro hmem
  rcases List.mem_map.mp hmem with ⟨b, _, hb⟩
  exact h b.1 b.2 hb.symm

/-- The task of shard `idx` calls the message consumer of that shard once and
the measurement consumer of that shard once if the message consumer returns,
and not at all if it raises; it calls no other consumer. -/
theorem shardTask_counts (env : TickEnv) (cache : DataCache) (idx : Nat)
    (measurementHandler : MeasurementConsumer) (messageHandler : MessageConsumer) (i : Nat) :
    (shardTask env cache idx measurementHandler messageHandler).2.1.count
        (Event.MessageProcess i) = (if i = idx then 1 else 0) ∧
    (shardTask env cache idx measurementHandler messageHandler).2.1.count
        (Event.MeasurementProcess i)
      = (if i = idx ∧ (messageHandler.Process env.consumer cache env.now).result.isSome = true
         then 1 else 0) := by
  have hm1 := count_publishMessages (Event.MessageProcess i)
    (messageHandler.Process env.consumer cache env.now).published (by intro _ _ h; cases h)
  have hm2 := count_publishMessages (Event.MeasurementProcess i)
    (messageHandler.Process env.consumer cache env.now).published (by intro _ _ h; cases h)
  have hp1 := count_publishMeasurements (Event.MessageProcess i)
    (measurementHandler.Process env cache).published (by intro _ _ h; cases h)
  have hp2 := count_publishMeasurements (Event.MeasurementProcess i)
    (measurementHandler.Process env cache).published (by intro _ _ h; cases h)
  unfold shardTask
  simp only
  cases hr : (messageHandler.Process env.consumer cache env.now).result with
  | none =>
    simp only [List.count_cons, List.count_append, List.count_nil, hm1, hm2]
    by_cases hi : i = idx
    · subst hi; simp
    · have hi2 : ¬ idx = i := fun h => hi h.symm
      simp [hi, hi2]
  | some messageResult =>
    cases hq : (measurementHandler.Process env cache).result with
    | none =>
      simp only [List.count_cons, List.count_append, List.count_nil, hm1, hm2, hp1, hp2]
      by_cases hi : i = idx
      · subst hi; simp
      · have hi2 : ¬ idx = i := fun h => hi h.symm
        simp [hi, hi2]
    | some measurementResult =>
      simp only [List.count_cons, List.count_append, List.count_nil, hm1, hm2, hp1, hp2]
      by_cases hi : i = idx
      · subst hi; simp
      · have hi2 : ¬ idx = i := fun h => hi h.symm
        simp [hi, hi2]

/-- No publish of messages is a repository call. -/
theorem filter_publishMessages (batches : List (String × List Message)) :
    (batches.map (fun b => Event.PublishMessages b.1 b.2)).filter Event.isRepositoryCall
      = [] := by
  rw [List.filter_eq_nil_iff]
  intro e he
  rcases List.mem_map.mp he with ⟨b, _, rfl⟩
  simp [Event.isRepositoryCall]

/-- No publish of measurements is a repository call. -/
theorem filter_publishMeasurements (batches : List (String × List Measurement)) :
    (batches.map (fun b => Event.PublishMeasurements b.1 b.2)).filter Event.isRepositoryCall
      = [] := by
  rw [List.filter_eq_nil_iff]
  intro e he
  rcases List.mem_map.mp he with ⟨b, _, rfl⟩
  simp [Event.isRepositoryCall]

/-- No event of a shard task is a repository call. -/
theorem shardTask_noRepository (env : TickEnv) (cache : DataCache) (idx : Nat)
    (measurementHandler : MeasurementConsumer) (messageHandler : MessageConsumer) :
    (shardTask env cache idx measurementHandler messageHandler).2.1.filter
      Event.isRepositoryCall = [] := by
  unfold shardTask
  simp only
  cases hr : (messageHandler.Process env.consumer cache env.now).result with
  | none =>
    simp [List.filter_cons, List.filter_append, filter_publishMessages,
      Event.isRepositoryCall]
  | some messageResult =>
    cases hq : (measurementHandler.Process env cache).result with
    | none =>
      simp [List.filter_cons, List.filter_append, filter_publishMessages,
        filter_publishMeasurements, Event.isRepositoryCall]
    | some measurementResult =>
      simp [List.filter_cons, List.filter_append, filter_publishMessages,
        filter_publishMeasurements, Event.isRepositoryCall]

/-- The shard tasks from index `idx` on call the message consumer of every
shard once, the measurement consumer of a shard once if its message consumer
returns and not at all if it raises, and no repository. -/
theorem runShards_events (env : TickEnv) (cache : DataCache) :
    ∀ (measurementHandlers : List MeasurementConsumer) (idx : Nat)
      (messageHandlers : List MessageConsumer),
      measurementHandlers.length = messageHandlers.length →
      (runShards env cache idx measurementHandlers messageHandlers).2.1.filter
        Event.isRepositoryCall = [] ∧
      ∀ j : Nat,
        (runShards env cache idx measurementHandlers messageHandlers).2.1.count
            (Event.MessageProcess j)
          = (if idx ≤ j ∧ j < idx + messageHandlers.length then 1 else 0) ∧
        (runShards env cache idx measurementHandlers messageHandlers).2.1.count
            (Event.MeasurementProcess j)
          = (if idx ≤ j then
              (match messageHandlers[j - idx]? with
               | some handler =>
                 if (handler.Process env.consumer cache env.now).result.isSome then 1 else 0
               | none => 0)
             else 0) := by
  intro measurementHandlers
  induction measurementHandlers with
  | nil =>
    intro idx messageHandlers hlen
    have hnil : messageHandlers = [] := List.length_eq_zero.mp hlen.symm
    subst hnil
    refine ⟨by simp [runShards], ?_⟩
    intro j
    have h1 : ¬ (idx ≤ j ∧ j < idx) := by omega
    simp [runShards, h1]
  | cons a rest ih =>
    intro idx messageHandlers hlen
    cases messageHandlers with
    | nil => simp at hlen
    | cons b more =>
      have hlen2 : rest.length = more.length := by simpa using hlen
      have hrest := ih (idx + 1) more hlen2
      have hrepo := shardTask_noRepository env cache idx a b
      refine ⟨?_, ?_⟩
      · simp only [runShards, List.filter_append, hrepo, hrest.1, List.append_nil]
      · intro j
        have hcount := shardTask_counts env cache idx a b j
        have hlater := hrest.2 j
        simp only [runShards, List.count_append, hcount.1, hcount.2, hlater.1, hlater.2,
          List.length_cons]
        rcases Nat.lt_trichotomy j idx with hlt | heq | hgt
        · have h1 : ¬ j = idx := by omega
          have h2 : ¬ idx + 1 ≤ j := by omega
          have h3 : ¬ idx ≤ j := by omega
          simp [h1, h2, h3]
        · subst heq
          have h2 : ¬ j + 1 ≤ j := by omega
          simp [h2]
        · have h1 : ¬ j = idx := by omega
          have h2 : idx + 1 ≤ j := by omega
          have h3 : idx ≤ j := by omega
          have h4 : j - idx = (j - (idx + 1)) + 1 := by omega
          simp only [h1, h2, h3, h4, false_and, if_false, if_true, true_and, Nat.zero_add,
            List.getElem?_cons_succ]
          constructor
          · by_cases h5 : j < idx + 1 + more.length
            · have h6 : j < idx + (more.length + 1) := by omega
              simp [h5, h6]
            · have h6 : ¬ j < idx + (more.length + 1) := by omega
              simp [h5, h6]
          · trivial

/-- No event of the shard tasks is a repository call. -/
theorem runShards_noRepository (env : TickEnv) (cache : DataCache) :
    ∀ (measurementHandlers : List MeasurementConsumer) (idx : Nat)
      (messageHandlers : List MessageConsumer),
      (runShards env cache idx measurementHandlers messageHandlers).2.1.filter
        Event.isRepositoryCall = [] := by
  intro measurementHandlers
  induction measurementHandlers with
  | nil => intro idx messageHandlers; simp [runShards]
  | cons a rest ih =>
    intro idx messageHandlers
    cases messageHandlers with
    | nil => simp [runShards]
    | cons b more =>
      simp only [runShards, List.filter_append, shardTask_noRepository env cache idx a b,
        ih (idx + 1) more, List.append_nil]

/-- The part of a tick after the reload calls no repository. -/
theorem afterReload_noRepository (env : TickEnv) (count : Nat) (self : MessageService) :
    (self.afterReload env count).events.filter Event.isRepositoryCall = [] := by
  have hrun := runShards_noRepository env self.m_cache self.m_measurementHandlers 0
    self.m_messageHandlers
  unfold MessageService.afterReload
  split
  · simp [MessageService.cleanupAndExecute, Event.isRepositoryCall]
  · simp only [MessageService.cleanupAndExecute, MessageService.RawProcess, List.filter_append,
      hrun]
    split <;> simp [Event.isRepositoryCall]

/-- The three repository calls are launched by `LoadAll` whatever they return. -/
theorem LoadAll_events (env : TickEnv) (self : MessageService) :
    (self.LoadAll env).2 = [Event.GetAllSensors, Event.GetAllUsers, Event.GetAllSensorKeys] := by
  unfold MessageService.LoadAll
  cases env.GetAllSensors <;> cases env.GetAllSensorKeys <;> cases env.GetAllUsers <;> rfl

/-- A drained command makes the repository call of `Command.fetch`. -/
theorem runCommand_fetch (env : TickEnv) (self : MessageService) (command : Command) :
    (self.runCommand env command).2 = command.fetch := by
  cases command
  · rfl
  · rfl
  · rfl
  · simp only [MessageService.runCommand, MessageService.AddUser, Command.fetch]
    cases env.GetUserById _ <;> rfl
  · simp only [MessageService.runCommand, MessageService.AddSensor, Command.fetch]
    cases env.GetSensorById _ <;> rfl
  · simp only [MessageService.runCommand, MessageService.AddKey, Command.fetch]
    cases env.GetSensorKey _ <;> rfl

/-- The repository calls collected over a run of commands. -/
theorem foldl_fetches (env : TickEnv) (commands : List Command)
    (acc : MessageService × List TargetedFetch) :
    (commands.foldl
      (fun acc command =>
        let done := acc.1.runCommand env command
        (done.1, acc.2 ++ done.2))
      acc).2 = acc.2 ++ commands.flatMap Command.fetch := by
  induction commands generalizing acc with
  | nil => simp
  | cons command rest ih =>
    rw [List.foldl_cons, ih]
    simp [runCommand_fetch, List.flatMap_cons, List.append_assoc]

/-- The drain of the command consumer makes the repository calls of the queued
commands, in the order of the queue. -/
theorem Execute_fetches (env : TickEnv) (self : MessageService) :
    (self.Execute env).2 = env.commands.flatMap Command.fetch := by
  unfold MessageService.Execute
  rw [foldl_fetches]
  rfl

/-- The part of a tick after the reload makes the repository calls of the
queued commands. -/
theorem afterReload_targeted (env : TickEnv) (count : Nat) (self : MessageService) :
    (self.afterReload env count).targeted = env.commands.flatMap Command.fetch := by
  unfold MessageService.afterReload
  split <;> simp [MessageService.cleanupAndExecute, Execute_fetches]

/-- C9. `ReloadTimeout` is five minutes. In a tick with
`now ≥ lastReload + ReloadTimeout`, the boundary included, `Process` makes
each of the three fetches of `LoadAll` once and `lastReload` is that tick's
`now` afterwards; in a tick with `now < lastReload + ReloadTimeout` it makes
none of them and `lastReload` is unchanged. The other repository calls of a
tick, reloading or not, are those of the command drain: one `GetUserById`,
`GetSensorById` or `GetSensorKey` for each queued `AddUser`, `AddSensor` or
`AddKey`, in the order of the queue, and none for a `Flush` command; none at
all in a tick whose reload fails, which does not reach the drain. -/
theorem reload_schedule (env : TickEnv) (self : MessageService) :
    ReloadTimeout = 5 * 60 * 1000000000 ∧
    (self.m_lastReload + ReloadTimeout ≤ env.now →
      (self.Process env).events.filter Event.isRepositoryCall
        = [Event.GetAllSensors, Event.GetAllUsers, Event.GetAllSensorKeys] ∧
      (self.Process env).service.m_lastReload = env.now) ∧
    (env.now < self.m_lastReload + ReloadTimeout →
      (self.Process env).events.filter Event.isRepositoryCall = [] ∧
      (self.Process env).service.m_lastReload = self.m_lastReload) ∧
    (env.now < self.m_lastReload + ReloadTimeout →
      (self.Process env).targeted = env.commands.flatMap Command.fetch) ∧
    (self.Process env).targeted
      = (if self.reloadFails env then [] else env.commands.flatMap Command.fetch) ∧
    (∀ command : Command,
      command.fetch
        = match command with
          | Command.AddUser id => [TargetedFetch.GetUserById id]
          | Command.AddSensor id => [TargetedFetch.GetSensorById id]
          | Command.AddKey key => [TargetedFetch.GetSensorKey key]
          | Command.FlushUser _ => []
          | Command.FlushSensor _ => []
          | Command.FlushKey _ => []) := by
  have htargeted : (self.Process env).targeted
      = (if self.reloadFails env then [] else env.commands.flatMap Command.fetch) := by
    by_cases hdue : self.m_lastReload + ReloadTimeout ≤ env.now
    · cases hs : env.GetAllSensors <;> cases hk : env.GetAllSensorKeys <;>
        cases hu : env.GetAllUsers <;>
        simp [MessageService.Process, MessageService.LoadAll, MessageService.reloadFails,
          MessageService.reloadDue, hdue, hs, hk, hu, afterReload_targeted]
    · simp [MessageService.Process, MessageService.reloadFails, MessageService.reloadDue,
        hdue, afterReload_targeted]
  refine ⟨rfl, ?_, ?_, ?_, htargeted, ?_⟩
  rotate_left 2
  · intro hnot
    have hdue : ¬ self.m_lastReload + ReloadTimeout ≤ env.now := Nat.not_le.mpr hnot
    rw [htargeted]
    simp [MessageService.reloadFails, MessageService.reloadDue, hdue]
  · intro command
    cases command <;> rfl
  · intro hdue
    unfold MessageService.Process
    simp only [if_pos hdue]
    split
    · rename_i hload
      simp [LoadAll_events, Event.isRepositoryCall]
    · rename_i loaded hload
      have hframe := LoadAll_frame env _ loaded hload
      have hafter := afterReload_frame env self.m_count loaded
      have hno := afterReload_noRepository env self.m_count loaded
      refine ⟨?_, ?_⟩
      · simp [LoadAll_events, List.filter_cons, List.filter_append, hno,
          Event.isRepositoryCall]
      · simp only
        rw [hafter.2.2.2.2.1, hframe]
  · intro hnot
    have hdue : ¬ self.m_lastReload + ReloadTimeout ≤ env.now := Nat.not_le.mpr hnot
    unfold MessageService.Process
    simp only [if_neg hdue]
    exact ⟨afterReload_noRepository env self.m_count _,
      (afterReload_frame env self.m_count _).2.2.2.2.1⟩

/-- Witness of C9, the boundary of scenario 6: the clock stands at
`lastReload + ReloadTimeout`; the three repositories are called, the new data
is in the cache, and `lastReload` is that instant. One nanosecond after the
creation of the service no reload is due, and the repository calls of the
tick are those of the two queued commands. -/
theorem reload_schedule_witness :
    ((MessageService.create 1 0).Process (sampleTick scenarioEnv (0 + ReloadTimeout))).events
      = [Event.Log LogLine.reloadingCaches, Event.GetAllSensors, Event.GetAllUsers,
         Event.GetAllSensorKeys, Event.CleanupFor CleanupTimeout, Event.Execute] ∧
    (((MessageService.create 1 0).Process
        (sampleTick scenarioEnv (0 + ReloadTimeout))).service.m_cache.GetSensor 1
          (0 + ReloadTimeout)) = (true, some sensorA) ∧
    (((MessageService.create 1 0).m_lastReload + ReloadTimeout
        ≤ (sampleTick scenarioEnv (0 + ReloadTimeout)).now →
      ((MessageService.create 1 0).Process
          (sampleTick scenarioEnv (0 + ReloadTimeout))).events.filter Event.isRepositoryCall
        = [Event.GetAllSensors, Event.GetAllUsers, Event.GetAllSensorKeys] ∧
      ((MessageService.create 1 0).Process
          (sampleTick scenarioEnv (0 + ReloadTimeout))).service.m_lastReload
        = (sampleTick scenarioEnv (0 + ReloadTimeout)).now)) ∧
    (commandTick 1).now < (MessageService.create 1 0).m_lastReload + ReloadTimeout ∧
    ((MessageService.create 1 0).Process (commandTick 1)).targeted
      = (commandTick 1).commands.flatMap Command.fetch :=
  ⟨by decide, by decide,
    (reload_schedule (sampleTick scenarioEnv (0 + ReloadTimeout))
      (MessageService.create 1 0)).2.1,
    by decide,
    (reload_schedule (commandTick 1) (MessageService.create 1 0)).2.2.2.1 (by decide)⟩

/-- Counterexample to C9 as written ("after a tick that does not reload ... no
repository was called"): the service was created at instant 0 and the clock
stands at 1, far from `ReloadTimeout`, with the commands `AddUser 10` and
`FlushSensor 1` queued. No reload is due, none of the three fetches of
`LoadAll` is made and `lastReload` is unchanged, yet the drain of the command
consumer calls `GetUserById 10` on the user repository and the user it
returns is in the cache afterwards. -/
theorem drain_fetches_without_reload :
    (MessageService.create 1 0).reloadDue (commandTick 1) = false ∧
    ((MessageService.create 1 0).Process (commandTick 1)).events
      = [Event.CleanupFor CleanupTimeout, Event.Execute] ∧
    ((MessageService.create 1 0).Process (commandTick 1)).events.filter Event.isRepositoryCall
      = [] ∧
    ((MessageService.create 1 0).Process (commandTick 1)).service.m_lastReload = 0 ∧
    ((MessageService.create 1 0).Process (commandTick 1)).targeted
      = [TargetedFetch.GetUserById 10] ∧
    ((MessageService.create 1 0).Process (commandTick 1)).service.m_cache.m_users
      = [⟨{ m_id := 10, m_banned := false, m_lockout := false }, 1, CacheTimeout⟩] ∧
    ((MessageService.create 1 0).Process (commandTick 1)).result = some 0 := by
  decide

/-- The log line of `RawProcess` is no call of a consumer. -/
theorem count_authorizedLog (e : Event) (n : Nat) (h : ∀ line, e ≠ Event.Log line) :
    (if n ≠ 0 then [Event.Log (LogLine.authorized n)] else []).count e = 0 := by
  split
  · rw [List.count_eq_zero]
    intro hmem
    exact h _ (List.mem_singleton.mp hmem)
  · rfl

/-- The cache `LoadAll` leaves depends on the cache it found only. -/
theorem LoadAll_cache_congr (env : TickEnv) (self other : MessageService)
    (h : self.m_cache = other.m_cache) :
    (self.LoadAll env).1.map (fun loaded => loaded.m_cache)
      = (other.LoadAll env).1.map (fun loaded => loaded.m_cache) := by
  unfold MessageService.LoadAll
  cases env.GetAllSensors <;> cases env.GetAllSensorKeys <;> cases env.GetAllUsers <;>
    simp [h]

/-- A reload whose fetches all succeed returns. -/
theorem LoadAll_isSome (env : TickEnv) (self : MessageService)
    (h : (env.GetAllSensors.isNone || env.GetAllSensorKeys.isNone || env.GetAllUsers.isNone)
      = false) :
    ∃ loaded, (self.LoadAll env).1 = some loaded := by
  unfold MessageService.LoadAll
  cases hs : env.GetAllSensors <;> cases hk : env.GetAllSensorKeys <;>
    cases hu : env.GetAllUsers <;> simp [hs, hk, hu] at h ⊢

/-- A tick whose reload, if one is due, does not fail is the reload's events
followed by the rest of `Process` on the service with the counter reset and
the cache of the tick. -/
theorem Process_shape (env : TickEnv) (self : MessageService)
    (hok : self.reloadFails env = false) :
    ∃ t : MessageService,
      t.m_cache = self.tickCache env ∧
      t.m_messageHandlers = self.m_messageHandlers ∧
      t.m_measurementHandlers = self.m_measurementHandlers ∧
      (self.Process env).events
        = self.reloadEvents env ++ (t.afterReload env self.m_count).events ∧
      (self.Process env).result = (t.afterReload env self.m_count).result ∧
      (self.Process env).service = (t.afterReload env self.m_count).service := by
  by_cases hdue : self.m_lastReload + ReloadTimeout ≤ env.now
  · have hdue2 : self.reloadDue env = true := by simp [MessageService.reloadDue, hdue]
    have hfetch : (env.GetAllSensors.isNone || env.GetAllSensorKeys.isNone
        || env.GetAllUsers.isNone) = false := by
      simpa [MessageService.reloadFails, hdue2] using hok
    obtain ⟨loaded, hload⟩ := LoadAll_isSome env
      { self with m_count := 0, m_lastReload := env.now } hfetch
    have hframe := LoadAll_frame env _ loaded hload
    have hcache := LoadAll_cache_congr env
      { self with m_count := 0, m_lastReload := env.now } self rfl
    rw [hload] at hcache
    refine ⟨loaded, ?_, ?_, ?_, ?_, ?_, ?_⟩
    · unfold MessageService.tickCache
      simp only [hdue2, if_true]
      cases hself : (self.LoadAll env).1 with
      | none => rw [hself] at hcache; simp at hcache
      | some other =>
        rw [hself] at hcache
        simpa using hcache
    · rw [hframe]
    · rw [hframe]
    · unfold MessageService.Process
      simp only [if_pos hdue, hload, MessageService.reloadEvents, hdue2, if_true,
        LoadAll_events]
    · unfold MessageService.Process
      simp only [if_pos hdue, hload]
    · unfold MessageService.Process
      simp only [if_pos hdue, hload]
  · have hdue2 : self.reloadDue env = false := by simp [MessageService.reloadDue, hdue]
    refine ⟨{ self with m_count := 0 }, ?_, rfl, rfl, ?_, ?_, ?_⟩
    · unfold MessageService.tickCache
      simp [hdue2]
    · unfold MessageService.Process
      simp only [if_neg hdue, MessageService.reloadEvents, hdue2]
      rfl
    · unfold MessageService.Process
      simp only [if_neg hdue]
    · unfold MessageService.Process
      simp only [if_neg hdue]

/-- C8 (as amended). In a tick whose reload, if one is due, does not fail:
the pending-work counter is 0 afterwards; when the captured value is 0,
`Process` does, after the reload's events, exactly the cache sweep and then
the drain of the command consumer, so no shard consumer is called and
nothing is published, the buffers are untouched and 0 is returned; when the
captured value is not 0, the message consumer of every shard is called
exactly once, and the measurement consumer of a shard is called exactly once
if the message consumer of that shard returns and not at all if it raises. -/
theorem tick_branches (env : TickEnv) (self : MessageService)
    (hlen : self.m_measurementHandlers.length = self.m_messageHandlers.length)
    (hok : self.reloadFails env = false) :
    (self.Process env).service.m_count = 0 ∧
    (self.m_count = 0 →
      (self.Process env).events
        = self.reloadEvents env ++ [Event.CleanupFor CleanupTimeout, Event.Execute] ∧
      (self.Process env).result = some 0 ∧
      (self.Process env).service.m_messageHandlers = self.m_messageHandlers ∧
      (self.Process env).service.m_measurementHandlers = self.m_measurementHandlers) ∧
    (self.m_count ≠ 0 → ∀ i : Nat, i < self.m_messageHandlers.length →
      (self.Process env).events.count (Event.MessageProcess i) = 1 ∧
      (self.Process env).events.count (Event.MeasurementProcess i)
        = if self.messageShardReturns env i then 1 else 0) := by
  obtain ⟨t, hcache, hmsg, hmeas, hevents, hresult, hservice⟩ := Process_shape env self hok
  refine ⟨(Process_frame env self).2.2.2.2, ?_, ?_⟩
  · intro hzero
    have hafter : t.afterReload env self.m_count
        = { service := (t.cleanupAndExecute env).1
            events := (t.cleanupAndExecute env).2.1
            targeted := (t.cleanupAndExecute env).2.2
            result := some 0 } := by
      unfold MessageService.afterReload
      simp [hzero]
    rw [hevents, hresult, hservice, hafter]
    simp [MessageService.cleanupAndExecute, hmsg, hmeas]
  · intro hbusy i hi
    have hpos : ¬ self.m_count ≤ 0 := by omega
    have hshards := (runShards_events env t.m_cache t.m_measurementHandlers 0
      t.m_messageHandlers (by rw [hmsg, hmeas]; exact hlen)).2 i
    have hreload1 : (self.reloadEvents env).count (Event.MessageProcess i) = 0 := by
      unfold MessageService.reloadEvents
      split <;> simp
    have hreload2 : (self.reloadEvents env).count (Event.MeasurementProcess i) = 0 := by
      unfold MessageService.reloadEvents
      split <;> simp
    have hin : 0 ≤ i ∧ i < 0 + t.m_messageHandlers.length := by
      rw [hmsg]; omega
    have hlog1 := count_authorizedLog (Event.MessageProcess i)
      (runShards env t.m_cache 0 t.m_measurementHandlers t.m_messageHandlers).2.2
      (by intro _ h; cases h)
    have hlog2 := count_authorizedLog (Event.MeasurementProcess i)
      (runShards env t.m_cache 0 t.m_measurementHandlers t.m_messageHandlers).2.2
      (by intro _ h; cases h)
    have hret : self.messageShardReturns env i
        = (match t.m_messageHandlers[i]? with
           | some handler =>
             (handler.Process env.consumer t.m_cache env.now).result.isSome
           | none => false) := by
      unfold MessageService.messageShardReturns
      rw [hmsg, hcache]
    rw [hevents, hret]
    unfold MessageService.afterReload
    simp only [if_neg hpos, MessageService.RawProcess, MessageService.cleanupAndExecute,
      List.count_append, hreload1, hreload2, hshards.1, hshards.2, if_pos hin, hlog1, hlog2,
      Nat.sub_zero, Nat.zero_le, if_true]
    constructor
    · have hi2 : i < t.m_messageHandlers.length := by rw [hmsg]; exact hi
      simp [hi2]
    · cases t.m_messageHandlers[i]? with
      | none => simp
      | some handler =>
        simp only
        split <;> simp

/-- Witness of C8: a busy tick of the sample service with a broker that takes
every publish; both consumers of the one shard are called once. -/
theorem tick_branches_witness :
    busyService.m_measurementHandlers.length = busyService.m_messageHandlers.length ∧
    busyService.reloadFails (sampleTick scenarioEnv 1) = false ∧
    ((busyService.Process (sampleTick scenarioEnv 1)).service.m_count = 0 ∧
    (busyService.m_count = 0 →
      (busyService.Process (sampleTick scenarioEnv 1)).events
        = busyService.reloadEvents (sampleTick scenarioEnv 1) ++ [Event.CleanupFor CleanupTimeout, Event.Execute] ∧
      (busyService.Process (sampleTick scenarioEnv 1)).result = some 0 ∧
      (busyService.Process (sampleTick scenarioEnv 1)).service.m_messageHandlers = busyService.m_messageHandlers ∧
      (busyService.Process (sampleTick scenarioEnv 1)).service.m_measurementHandlers = busyService.m_measurementHandlers) ∧
    (busyService.m_count ≠ 0 → ∀ i : Nat, i < busyService.m_messageHandlers.length →
      (busyService.Process (sampleTick scenarioEnv 1)).events.count (Event.MessageProcess i) = 1 ∧
      (busyService.Process (sampleTick scenarioEnv 1)).events.count (Event.MeasurementProcess i)
        = if busyService.messageShardReturns (sampleTick scenarioEnv 1) i then 1 else 0)) :=
  ⟨by decide, by decide, tick_branches (sampleTick scenarioEnv 1) busyService (by decide)
    (by decide)⟩

/-- Counterexample to C8 as stated: the captured counter is 2, the broker
refuses the publish of the one authorized message, the message consumer's
`Process` leaves by the exception, and the measurement consumer of the shard
is not called in the tick: its entry is still buffered while the counter is
back at 0. -/
theorem tick_skips_measurement_consumer :
    busyService.m_count = 2 ∧
    (busyService.Process (sampleTick refusingEnv 1)).events
      = [Event.Log (LogLine.processing 2), Event.MessageProcess 0,
         Event.Log LogLine.unableToPublish, Event.CleanupFor CleanupTimeout, Event.Execute,
         Event.Log (LogLine.processingTook 3)] ∧
    (busyService.Process (sampleTick refusingEnv 1)).events.count (Event.MeasurementProcess 0)
      = 0 ∧
    (busyService.Process (sampleTick refusingEnv 1)).service.m_measurementHandlers
      = [{ m_messages := [measurementPair] }] ∧
    (busyService.Process (sampleTick refusingEnv 1)).service.m_count = 0 := by
  decide

/-- An idle tick of a fresh service, evaluated: the sweep, then the drain, and
the result 0. -/
theorem idle_tick_sample :
    ((MessageService.create 2 0).Process (sampleTick scenarioEnv 1)).events
      = [Event.CleanupFor CleanupTimeout, Event.Execute] ∧
    ((MessageService.create 2 0).Process (sampleTick scenarioEnv 1)).result = some 0 := by
  decide

/-! ## The reuse of the held sensor -/

/-- The naive walk authorizes exactly the entries that pass and throws exactly
when some entry raises. -/
theorem naiveWalk_eq (env : ConsumerEnv) (lookup : ObjectId → SensorLookupType) :
    ∀ data : List MessagePair,
      MessageConsumer.naiveWalk env lookup data =
        if data.any (raises env lookup) then none
        else some ((data.filter (passes env lookup)).map Prod.snd) := by
  intro data
  induction data with
  | nil => rfl
  | cons pair rest ih =>
    have hr : ∀ b o, lookup pair.2.m_sensorId = (b, o) →
        raises env lookup pair = (match b, o with
          | true, some s => ValidateMessage env s pair == none
          | _, _ => false) := by
      intro b o h
      unfold raises
      rw [h]
      cases b <;> cases o <;> rfl
    have hp : ∀ b o, lookup pair.2.m_sensorId = (b, o) →
        passes env lookup pair = (match b, o with
          | true, some s => ValidateMessage env s pair == some true
          | _, _ => false) := by
      intro b o h
      unfold passes
      rw [h]
      cases b <;> cases o <;> rfl
    simp only [MessageConsumer.naiveWalk]
    rcases hl : lookup pair.2.m_sensorId with ⟨found, value⟩
    have hr2 := hr found value hl
    have hp2 := hp found value hl
    cases hany : rest.any (raises env lookup) <;> rw [hany] at ih <;>
      cases found <;> cases value <;>
      simp only [List.any_cons, List.filter_cons, hr2, hp2, ih, hany] <;>
      try simp
    all_goals
      rename_i s
      cases hv : ValidateMessage env s pair with
      | none => simp
      | some ok => cases ok <;> simp

/-- C12. For a lookup that returns only sensors with the requested id (within
one `Process` the lookup is a function of the id, the instant being fixed),
the walk of `MessageConsumer::Process`, which consults the lookup only when it
holds no sensor value or the held sensor's id differs from the entry's, gives
for every data the result of the naive walk that consults it for every entry:
the same authorized batch, or the same exception; hence, for the lookup of a
cache, `Process` and the naive `Process` have the same outcome on every
buffer, published batch and returned count included. -/
theorem reuse_sound (env : ConsumerEnv) (lookup : ObjectId → SensorLookupType)
    (hid : ∀ id s, (lookup id).2 = some s → s.m_id = id) (data : List MessagePair) :
    MessageConsumer.walk env lookup (false, none) data
      = MessageConsumer.naiveWalk env lookup data ∧
    (∀ (cache : DataCache) (now : TimePoint),
      lookup = (fun id => cache.GetSensor id now) →
      MessageConsumer.Process env cache now { m_messages := data }
        = MessageConsumer.naiveProcess env cache now { m_messages := data }) := by
  have hwalk : ∀ d : List MessagePair, MessageConsumer.walk env lookup (false, none) d
      = MessageConsumer.naiveWalk env lookup d := by
    intro d
    rw [walk_eq env lookup hid d (false, none) (fun s h => by simp at h), naiveWalk_eq]
  refine ⟨hwalk data, ?_⟩
  intro cache now hlookup
  subst hlookup
  unfold MessageConsumer.Process MessageConsumer.naiveProcess
  simp only [hwalk]

/-- Witness of C12: the lookup of the sample cache at instant 1 returns only
sensors with the requested id, and the two walks agree on a buffer with an
unknown sensor and two entries of one sensor. -/
theorem reuse_sound_witness :
    (∀ id s, (sampleCache.GetSensor id 1).2 = some s → s.m_id = id) ∧
    (MessageConsumer.walk scenarioEnv (fun id => sampleCache.GetSensor id 1) (false, none)
        [strangerPair, plainPair, sentinelInDataPair]
      = MessageConsumer.naiveWalk scenarioEnv (fun id => sampleCache.GetSensor id 1)
        [strangerPair, plainPair, sentinelInDataPair] ∧
    (∀ (cache : DataCache) (now : TimePoint),
      (fun id => sampleCache.GetSensor id 1) = (fun id => cache.GetSensor id now) →
      MessageConsumer.Process scenarioEnv cache now
          { m_messages := [strangerPair, plainPair, sentinelInDataPair] }
        = MessageConsumer.naiveProcess scenarioEnv cache now
          { m_messages := [strangerPair, plainPair, sentinelInDataPair] })) :=
  ⟨fun id s h => GetSensor_id sampleCache id 1 s h,
    reuse_sound scenarioEnv (fun id => sampleCache.GetSensor id 1)
      (fun id s h => GetSensor_id sampleCache id 1 s h)
      [strangerPair, plainPair, sentinelInDataPair]⟩

/-- The assumption of C12 is needed: with a lookup that answers the request for
sensor 1 with a sensor of id 2, the walk reuses that sensor for an entry of
sensor 2 and authorizes it, whereas the naive walk finds sensor 2 unknown. -/
theorem reuse_needs_keyed_lookup :
    MessageConsumer.walk scenarioEnv miskeyedLookup (false, none)
        [plainPair, ("", { m_secret := "secret1", m_data := "other", m_sensorId := 2 })]
      = some [plainPair.2, { m_secret := "secret1", m_data := "other", m_sensorId := 2 }] ∧
    MessageConsumer.naiveWalk scenarioEnv miskeyedLookup
        [plainPair, ("", { m_secret := "secret1", m_data := "other", m_sensorId := 2 })]
      = some [plainPair.2] := by
  decide

/-! ## A reload that fails -/

/-- The fetches a tick makes and the reload instant it leaves: the three
fetches and the tick's `now` when a reload is due, none and the old instant
otherwise. -/
theorem Process_reload (env : TickEnv) (self : MessageService) :
    (self.Process env).events.filter Event.isRepositoryCall
      = (if self.reloadDue env then
          [Event.GetAllSensors, Event.GetAllUsers, Event.GetAllSensorKeys]
         else []) ∧
    (self.Process env).service.m_lastReload
      = (if self.reloadDue env then env.now else self.m_lastReload) := by
  by_cases hdue : self.m_lastReload + ReloadTimeout ≤ env.now
  · have hdue2 : self.reloadDue env = true := by simp [MessageService.reloadDue, hdue]
    unfold MessageService.Process
    simp only [if_pos hdue, hdue2, if_true]
    split
    · simp [LoadAll_events, Event.isRepositoryCall]
    · rename_i loaded hload
      have hframe := LoadAll_frame env _ loaded hload
      have hafter := afterReload_frame env self.m_count loaded
      have hno := afterReload_noRepository env self.m_count loaded
      refine ⟨?_, ?_⟩
      · simp [LoadAll_events, List.filter_cons, List.filter_append, hno,
          Event.isRepositoryCall]
      · simp only
        rw [hafter.2.2.2.2.1, hframe]
  · have hdue2 : self.reloadDue env = false := by simp [MessageService.reloadDue, hdue]
    unfold MessageService.Process
    simp only [if_neg hdue, hdue2]
    exact ⟨afterReload_noRepository env self.m_count _,
      (afterReload_frame env self.m_count _).2.2.2.2.1⟩

/-- A reload one of whose fetches fails makes `LoadAll` throw. -/
theorem LoadAll_none (env : TickEnv) (self : MessageService)
    (h : (env.GetAllSensors.isNone || env.GetAllSensorKeys.isNone || env.GetAllUsers.isNone)
      = true) :
    (self.LoadAll env).1 = none := by
  unfold MessageService.LoadAll
  cases hs : env.GetAllSensors <;> cases hk : env.GetAllSensorKeys <;>
    cases hu : env.GetAllUsers <;> simp [hs, hk, hu] at h ⊢

/-- C11 (as amended). In a tick in which a reload is due and one of the three
fetches fails: the exception leaves `LoadAll` and `MessageService::Process`
(no result is returned; the log holds the line of the reload and no line of
the failure; neither the sweep nor the drain runs); the cache is exactly what
it was before the tick, the buffers are untouched and the pending-work
counter is 0; `lastReload` is the tick's `now`, so a later tick makes the
three fetches again exactly when its `now` has reached that instant plus
`ReloadTimeout`. -/
theorem reload_failure (env : TickEnv) (self : MessageService)
    (hfail : self.reloadFails env = true) :
    (self.Process env).result = none ∧
    (self.Process env).events
      = [Event.Log LogLine.reloadingCaches, Event.GetAllSensors, Event.GetAllUsers,
         Event.GetAllSensorKeys] ∧
    (self.Process env).service.m_cache = self.m_cache ∧
    (self.Process env).service.m_messageHandlers = self.m_messageHandlers ∧
    (self.Process env).service.m_measurementHandlers = self.m_measurementHandlers ∧
    (self.Process env).service.m_count = 0 ∧
    (self.Process env).service.m_lastReload = env.now ∧
    (∀ later : TickEnv, later.now < env.now + ReloadTimeout →
      (((self.Process env).service.Process later).events.filter Event.isRepositoryCall
        = [])) ∧
    (∀ later : TickEnv, env.now + ReloadTimeout ≤ later.now →
      (((self.Process env).service.Process later).events.filter Event.isRepositoryCall
        = [Event.GetAllSensors, Event.GetAllUsers, Event.GetAllSensorKeys])) := by
  have hparts : self.reloadDue env = true ∧
      (env.GetAllSensors.isNone || env.GetAllSensorKeys.isNone || env.GetAllUsers.isNone)
        = true := by
    simpa [MessageService.reloadFails] using hfail
  have hdue : self.m_lastReload + ReloadTimeout ≤ env.now := by
    simpa [MessageService.reloadDue] using hparts.1
  have hload := LoadAll_none env { self with m_count := 0, m_lastReload := env.now } hparts.2
  have hout : self.Process env
      = { service := { self with m_count := 0, m_lastReload := env.now }
          events := [Event.Log LogLine.reloadingCaches, Event.GetAllSensors, Event.GetAllUsers,
            Event.GetAllSensorKeys]
          targeted := []
          result := none } := by
    unfold MessageService.Process
    simp only [if_pos hdue, hload, LoadAll_events]
  refine ⟨by rw [hout], by rw [hout], by rw [hout], by rw [hout], by rw [hout], by rw [hout],
    by rw [hout], ?_, ?_⟩
  · intro later hlater
    have hnot : ((self.Process env).service).reloadDue later = false := by
      rw [hout]
      simp only [MessageService.reloadDue, decide_eq_false_iff_not]
      exact Nat.not_le.mpr hlater
    rw [(Process_reload later _).1, hnot]
    rfl
  · intro later hlater
    have hyes : ((self.Process env).service).reloadDue later = true := by
      rw [hout]
      simp only [MessageService.reloadDue, decide_eq_true_eq]
      exact hlater
    rw [(Process_reload later _).1, hyes]
    rfl

/-- Witness of C11: the sample service, last reloaded at instant 0, in a tick at
instant `ReloadTimeout` whose fetch of the users fails. -/
theorem reload_failure_witness :
    loadedService.reloadFails (failingTick ReloadTimeout) = true ∧
    ((loadedService.Process (failingTick ReloadTimeout)).result = none ∧
    (loadedService.Process (failingTick ReloadTimeout)).events
      = [Event.Log LogLine.reloadingCaches, Event.GetAllSensors, Event.GetAllUsers,
         Event.GetAllSensorKeys] ∧
    (loadedService.Process (failingTick ReloadTimeout)).service.m_cache = loadedService.m_cache ∧
    (loadedService.Process (failingTick ReloadTimeout)).service.m_messageHandlers = loadedService.m_messageHandlers ∧
    (loadedService.Process (failingTick ReloadTimeout)).service.m_measurementHandlers = loadedService.m_measurementHandlers ∧
    (loadedService.Process (failingTick ReloadTimeout)).service.m_count = 0 ∧
    (loadedService.Process (failingTick ReloadTimeout)).service.m_lastReload = (failingTick ReloadTimeout).now ∧
    (∀ later : TickEnv, later.now < (failingTick ReloadTimeout).now + ReloadTimeout →
      (((loadedService.Process (failingTick ReloadTimeout)).service.Process later).events.filter Event.isRepositoryCall
        = [])) ∧
    (∀ later : TickEnv, (failingTick ReloadTimeout).now + ReloadTimeout ≤ later.now →
      (((loadedService.Process (failingTick ReloadTimeout)).service.Process later).events.filter Event.isRepositoryCall
        = [Event.GetAllSensors, Event.GetAllUsers, Event.GetAllSensorKeys]))) :=
  ⟨by decide, reload_failure (failingTick ReloadTimeout) loadedService (by decide)⟩

/-- Counterexample to C11 as stated: a reload is due and the fetch of the users
fails; `Process` does not return (the exception leaves it), the log holds the
line of the reload only, and the one buffered message stays buffered while
the pending-work counter is 0. -/
theorem reload_failure_propagates :
    loadedService.reloadFails (failingTick ReloadTimeout) = true ∧
    (loadedService.Process (failingTick ReloadTimeout)).result = none ∧
    (loadedService.Process (failingTick ReloadTimeout)).events
      = [Event.Log LogLine.reloadingCaches, Event.GetAllSensors, Event.GetAllUsers,
         Event.GetAllSensorKeys] ∧
    (loadedService.Process (failingTick ReloadTimeout)).service.m_messageHandlers
      = [{ m_messages := [plainPair] }] ∧
    (loadedService.Process (failingTick ReloadTimeout)).service.m_count = 0 := by
  decide

/-! ## The pending-work counter -/

/-- Appending `k` entries to the buffer at an index inside the vector adds `k`
to the number of buffered entries. -/
theorem sum_updateAt {α : Type} (f : α → α) (g : α → Nat) (k : Nat)
    (hf : ∀ a, g (f a) = g a + k) :
    ∀ (idx : Nat) (l : List α), idx < l.length →
      ((updateAt f idx l).map g).sum = (l.map g).sum + k := by
  intro idx l
  induction l generalizing idx with
  | nil => intro h; simp at h
  | cons a rest ih =>
    intro h
    cases idx with
    | zero => simp [updateAt, hf]; omega
    | succ i =>
      have hi : i < rest.length := by simpa using h
      simp [updateAt, ih i hi]; omega

/-- The measurement consumer's buffer is empty after its `Process`, however it
ends. -/
theorem MeasurementProcess_drains (env : TickEnv) (cache : DataCache)
    (self : MeasurementConsumer) :
    (self.Process env cache).consumer.m_messages = [] := by
  unfold MeasurementConsumer.Process
  repeat' split
  all_goals rfl

/-- When the message consumer of every shard returns, the shard tasks leave
every buffer of both kinds empty. -/
theorem runShards_drained (env : TickEnv) (cache : DataCache) :
    ∀ (measurementHandlers : List MeasurementConsumer) (idx : Nat)
      (messageHandlers : List MessageConsumer),
      measurementHandlers.length = messageHandlers.length →
      (∀ h ∈ messageHandlers, (h.Process env.consumer cache env.now).result.isSome = true) →
      (∀ h ∈ (runShards env cache idx measurementHandlers messageHandlers).1.1,
        h.m_messages = []) ∧
      (∀ h ∈ (runShards env cache idx measurementHandlers messageHandlers).1.2,
        h.m_messages = []) := by
  intro measurementHandlers
  induction measurementHandlers with
  | nil =>
    intro idx messageHandlers hlen _
    have hnil : messageHandlers = [] := List.length_eq_zero.mp hlen.symm
    subst hnil
    simp [runShards]
  | cons a rest ih =>
    intro idx messageHandlers hlen hret
    cases messageHandlers with
    | nil => simp at hlen
    | cons b more =>
      have hlen2 : rest.length = more.length := by simpa using hlen
      have hrest := ih (idx + 1) more hlen2
        (fun h hh => hret h (List.mem_cons_of_mem b hh))
      have hb := hret b (List.mem_cons_self b more)
      obtain ⟨n, hn⟩ := Option.isSome_iff_exists.mp hb
      have htask1 : (shardTask env cache idx a b).1.1.m_messages = [] := by
        unfold shardTask
        simp only [hn]
        split <;> exact MeasurementProcess_drains env cache a
      have htask2 : (shardTask env cache idx a b).1.2.m_messages = [] := by
        unfold shardTask
        simp only [hn]
        split <;> exact Process_drains env.consumer cache env.now b
      constructor
      · intro h hh
        simp only [runShards, List.mem_cons] at hh
        rcases hh with rfl | hh
        · exact htask1
        · exact hrest.1 h hh
      · intro h hh
        simp only [runShards, List.mem_cons] at hh
        rcases hh with rfl | hh
        · exact htask2
        · exact hrest.2 h hh

/-- Empty buffers hold nothing. -/
theorem sum_lengths_zero {α β : Type} (g : α → List β) (l : List α)
    (h : ∀ a ∈ l, g a = []) : (l.map (fun a => (g a).length)).sum = 0 := by
  induction l with
  | nil => rfl
  | cons a rest ih =>
    simp [h a (List.mem_cons_self a rest),
      ih (fun x hx => h x (List.mem_cons_of_mem a hx))]

/-- Buffers that hold nothing are empty. -/
theorem lengths_zero_of_sum {α β : Type} (g : α → List β) (l : List α)
    (h : (l.map (fun a => (g a).length)).sum = 0) : ∀ a ∈ l, g a = [] := by
  induction l with
  | nil => intro a ha; simp at ha
  | cons b rest ih =>
    simp only [List.map_cons, List.sum_cons] at h
    intro a ha
    rcases List.mem_cons.mp ha with rfl | hrest
    · exact List.length_eq_zero.mp (by omega)
    · exact ih (by omega) a hrest

/-- A tick in which no reload fails and no shard consumer fails leaves the
buffers as they are when the captured counter is 0 and empties all of them
otherwise. -/
theorem Process_pending (env : TickEnv) (self : MessageService)
    (hlen : self.m_measurementHandlers.length = self.m_messageHandlers.length)
    (hok : self.reloadFails env = false) (hret : self.shardsReturn env = true) :
    (self.Process env).service.pending = (if self.m_count = 0 then self.pending else 0) := by
  obtain ⟨t, hcache, hmsg, hmeas, _, _, hservice⟩ := Process_shape env self hok
  rw [hservice]
  by_cases hzero : self.m_count = 0
  · simp only [hzero, if_true]
    unfold MessageService.afterReload
    simp [MessageService.cleanupAndExecute, MessageService.pending, hmsg, hmeas]
  · have hpos : ¬ self.m_count ≤ 0 := by omega
    have hall : ∀ h ∈ t.m_messageHandlers,
        (h.Process env.consumer t.m_cache env.now).result.isSome = true := by
      intro h hh
      rw [hmsg] at hh
      rw [hcache]
      have := (Bool.and_eq_true _ _).mp hret
      exact List.all_eq_true.mp this.1 h hh
    have hdrained := runShards_drained env t.m_cache t.m_measurementHandlers 0
      t.m_messageHandlers (by rw [hmsg, hmeas]; exact hlen) hall
    simp only [hzero, if_false]
    unfold MessageService.afterReload
    simp only [if_neg hpos, MessageService.RawProcess, MessageService.cleanupAndExecute,
      MessageService.pending, Execute_measurementHandlers, Execute_messageHandlers]
    rw [sum_lengths_zero (fun h : MeasurementConsumer => h.m_messages) _ hdrained.1,
      sum_lengths_zero (fun h : MessageConsumer => h.m_messages) _ hdrained.2]

/-- What an ingress call does to the buffered payloads and to the counter: a
call that reaches its push adds its payloads to both, the counter modulo
`2^32`; a call that is dropped changes neither. -/
theorem step_pending (v : String → Bool × Measurement) (self : MessageService) (c : Call)
    (hlen : self.m_measurementHandlers.length = self.m_messageHandlers.length)
    (hpos : 0 < self.m_messageHandlers.length)
    (hcount : self.m_count = self.pending % UINT_MODULUS)
    (hquiet : (match c with
      | Call.Process env => !self.reloadFails env && self.shardsReturn env
      | _ => true) = true) :
    (self.step v c).m_count = (self.step v c).pending % UINT_MODULUS := by
  have hposM : 0 < self.m_measurementHandlers.length := by rw [hlen]; exact hpos
  have hpushMsg : ∀ (q : List MessagePair) (idx : Nat), idx < self.m_messageHandlers.length →
      ((updateAt (fun repo : MessageConsumer => repo.PushMessages q) idx
        self.m_messageHandlers).map (fun h => h.m_messages.length)).sum
        = (self.m_messageHandlers.map (fun h => h.m_messages.length)).sum + q.length :=
    fun q idx h => sum_updateAt _ _ q.length
      (by intro a; simp [MessageConsumer.PushMessages]) idx _ h
  have hpushMeas : ∀ (q : List MeasurementPair) (idx : Nat),
      idx < self.m_measurementHandlers.length →
      ((updateAt (fun repo : MeasurementConsumer => repo.PushMessages q) idx
        self.m_measurementHandlers).map (fun h => h.m_messages.length)).sum
        = (self.m_measurementHandlers.map (fun h => h.m_messages.length)).sum + q.length :=
    fun q idx h => sum_updateAt _ _ q.length
      (by intro a; simp [MeasurementConsumer.PushMessages]) idx _ h
  have hpushMsg1 : ∀ (q : MessagePair) (idx : Nat), idx < self.m_messageHandlers.length →
      ((updateAt (fun repo : MessageConsumer => repo.PushMessage q) idx
        self.m_messageHandlers).map (fun h => h.m_messages.length)).sum
        = (self.m_messageHandlers.map (fun h => h.m_messages.length)).sum + 1 :=
    fun q idx h => sum_updateAt _ _ 1
      (by intro a; simp [MessageConsumer.PushMessage]) idx _ h
  have hpushMeas1 : ∀ (q : MeasurementPair) (idx : Nat),
      idx < self.m_measurementHandlers.length →
      ((updateAt (fun repo : MeasurementConsumer => repo.PushMessage q) idx
        self.m_measurementHandlers).map (fun h => h.m_messages.length)).sum
        = (self.m_measurementHandlers.map (fun h => h.m_messages.length)).sum + 1 :=
    fun q idx h => sum_updateAt _ _ 1
      (by intro a; simp [MeasurementConsumer.PushMessage]) idx _ h
  have hmeasure : ∀ m : MeasurementPair,
      (self.AddMeasurement m).m_count = (self.AddMeasurement m).pending % UINT_MODULUS := by
    intro m
    simp only [MessageService.AddMeasurement, MessageService.pending,
      hpushMeas1 m _ (Nat.mod_lt _ hposM), hcount, UINT_MODULUS]
    omega
  cases c with
  | AddMeasurementString msg =>
    simp only [MessageService.step, MessageService.AddMeasurementString]
    split
    · exact hcount
    · exact hmeasure _
  | AddMeasurement measurement => exact hmeasure measurement
  | AddMessage message =>
    simp only [MessageService.step, MessageService.AddMessage, MessageService.pending,
      hpushMsg1 message _ (Nat.mod_lt _ hpos), hcount, UINT_MODULUS]
    omega
  | AddMeasurements measurements =>
    simp only [MessageService.step, MessageService.AddMeasurements]
    split
    · exact hcount
    · simp only [MessageService.pending, hpushMeas measurements _ (Nat.mod_lt _ hposM), hcount,
        UINT_MODULUS]
      omega
  | AddMessages messages =>
    simp only [MessageService.step, MessageService.AddMessages]
    split
    · exact hcount
    · simp only [MessageService.pending, hpushMsg messages _ (Nat.mod_lt _ hpos), hcount,
        UINT_MODULUS]
      omega
  | Process env =>
    simp only [Bool.and_eq_true, Bool.not_eq_true', ] at hquiet
    have hp := Process_pending env self hlen hquiet.1 hquiet.2
    have hc := (Process_frame env self).2.2.2.2
    simp only [MessageService.step, hp, hc]
    split
    · rename_i hzero
      rw [← hcount, hzero]
    · rfl

/-- A sequence of calls is quiet when its first call is and the rest is, from
the state the first call leaves. -/
theorem quiet_cons (v : String → Bool × Measurement) (self : MessageService) (c : Call)
    (rest : List Call) :
    self.quiet v (c :: rest)
      = ((match c with
          | Call.Process env => !self.reloadFails env && self.shardsReturn env
          | _ => true) &&
        (self.step v c).quiet v rest) := by
  rfl

/-- Along a sequence of calls whose ticks are free of failing reloads and
failing shard consumers, the pending-work counter stays the number of
buffered payloads modulo `2^32`. -/
theorem run_pending (v : String → Bool × Measurement) :
    ∀ (calls : List Call) (self : MessageService),
      self.m_measurementHandlers.length = self.m_messageHandlers.length →
      0 < self.m_messageHandlers.length →
      self.m_count = self.pending % UINT_MODULUS →
      self.quiet v calls = true →
      (self.run v calls).m_count = (self.run v calls).pending % UINT_MODULUS := by
  intro calls
  induction calls with
  | nil => intro self _ _ hcount _; exact hcount
  | cons c rest ih =>
    intro self hlen hpos hcount hquiet
    have hrun : self.run v (c :: rest) = (self.step v c).run v rest := rfl
    rw [quiet_cons] at hquiet
    have hq := (Bool.and_eq_true _ _).mp hquiet
    have hframe := step_frame v self c
    rw [hrun]
    exact ih (self.step v c) (by rw [hframe.2.2.1, hframe.2.2.2, hlen])
      (by rw [hframe.2.2.2]; exact hpos)
      (step_pending v self c hlen hpos hcount hq.1) hq.2

/-- C13 (as amended). In every state reached from the construction of a service
with at least one worker by a sequence of ingress calls and ticks in which no
reload fails and no shard consumer fails, the pending-work counter is the
number of buffered payloads modulo `2^32`; so, as long as fewer than `2^32`
payloads are buffered, the counter is zero only if every shard's measurement
buffer and message buffer is empty, and a tick that then takes the idle branch
leaves no buffered payload behind. -/
theorem no_stranded_payloads (workers : Nat) (hw : 1 ≤ workers)
    (v : String → Bool × Measurement) (now : TimePoint) (calls : List Call)
    (hquiet : (MessageService.create workers now).quiet v calls = true) :
    ((MessageService.create workers now).run v calls).m_count
      = ((MessageService.create workers now).run v calls).pending % 2 ^ 32 ∧
    (((MessageService.create workers now).run v calls).pending < 2 ^ 32 →
      ((MessageService.create workers now).run v calls).m_count = 0 →
      (∀ h ∈ ((MessageService.create workers now).run v calls).m_messageHandlers,
        h.m_messages = []) ∧
      (∀ h ∈ ((MessageService.create workers now).run v calls).m_measurementHandlers,
        h.m_messages = [])) := by
  have hinit : (MessageService.create workers now).m_count
      = (MessageService.create workers now).pending % UINT_MODULUS := by
    have h1 : ((List.replicate workers ({ m_messages := [] } : MessageConsumer)).map
        (fun h => h.m_messages.length)).sum = 0 :=
      sum_lengths_zero (fun h : MessageConsumer => h.m_messages) _
        (fun a ha => by rw [List.eq_of_mem_replicate ha])
    have h2 : ((List.replicate workers ({ m_messages := [] } : MeasurementConsumer)).map
        (fun h => h.m_messages.length)).sum = 0 :=
      sum_lengths_zero (fun h : MeasurementConsumer => h.m_messages) _
        (fun a ha => by rw [List.eq_of_mem_replicate ha])
    simp only [MessageService.create, MessageService.pending, h1, h2]
    rfl
  have hinv := run_pending v calls (MessageService.create workers now)
    (by simp [MessageService.create]) (by simp [MessageService.create]; omega) hinit hquiet
  generalize (MessageService.create workers now).run v calls = s at hinv ⊢
  have hinv2 : s.m_count = s.pending % 2 ^ 32 := hinv
  refine ⟨hinv2, ?_⟩
  intro hsmall hzero
  have hpending : s.pending = 0 := by
    rw [Nat.mod_eq_of_lt hsmall] at hinv2
    omega
  unfold MessageService.pending at hpending
  have hboth := Nat.add_eq_zero_iff.mp hpending
  exact ⟨lengths_zero_of_sum (fun h : MessageConsumer => h.m_messages) _ hboth.2,
    lengths_zero_of_sum (fun h : MeasurementConsumer => h.m_messages) _ hboth.1⟩

/-- Witness of C13: one worker, a busy tick between ingress calls and an idle
tick at the end. -/
theorem no_stranded_payloads_witness :
    1 ≤ 1 ∧
    (MessageService.create 1 0).quiet rejectAll quietCalls = true ∧
    (((MessageService.create 1 0).run rejectAll quietCalls).m_count
      = ((MessageService.create 1 0).run rejectAll quietCalls).pending % 2 ^ 32 ∧
    (((MessageService.create 1 0).run rejectAll quietCalls).pending < 2 ^ 32 →
      ((MessageService.create 1 0).run rejectAll quietCalls).m_count = 0 →
      (∀ h ∈ ((MessageService.create 1 0).run rejectAll quietCalls).m_messageHandlers,
        h.m_messages = []) ∧
      (∀ h ∈ ((MessageService.create 1 0).run rejectAll quietCalls).m_measurementHandlers,
        h.m_messages = []))) :=
  ⟨by decide, by decide,
    no_stranded_payloads 1 (by decide) rejectAll 0 quietCalls (by decide)⟩

/-- The state after the calls of the witness of C13, evaluated: the counter is
0 and both buffers are empty. -/
theorem quietCalls_sample :
    ((MessageService.create 1 0).run rejectAll quietCalls).m_count = 0 ∧
    ((MessageService.create 1 0).run rejectAll quietCalls).m_messageHandlers
      = [{ m_messages := [] }] ∧
    ((MessageService.create 1 0).run rejectAll quietCalls).m_measurementHandlers
      = [{ m_messages := [] }] := by
  decide

/-- After a batch of `n` messages and one more message, with `n` equal to
`UINT_MAX`, the counter has wrapped to 0 and the one buffer holds `n + 1`
entries. -/
theorem counter_wraps (big : List MessagePair) (hbig : big.length = 4294967295)
    (q : MessagePair) :
    ((MessageService.create 1 0).run rejectAll
        [Call.AddMessages big, Call.AddMessage q]).m_count = 0 ∧
    ((MessageService.create 1 0).run rejectAll
        [Call.AddMessages big, Call.AddMessage q]).m_messageHandlers
      = [{ m_messages := big ++ [q] }] := by
  have hguard : ¬ big.length > UINT_MAX := by rw [hbig]; decide
  have hrun : (MessageService.create 1 0).run rejectAll
      [Call.AddMessages big, Call.AddMessage q]
      = ((MessageService.create 1 0).AddMessages big).AddMessage q := rfl
  have hadd : (MessageService.create 1 0).AddMessages big
      = { MessageService.create 1 0 with
          m_messageIndex := 1
          m_count := 4294967295
          m_messageHandlers := [{ m_messages := big }] } := by
    unfold MessageService.AddMessages
    rw [if_neg hguard]
    simp [MessageService.create, updateAt, MessageConsumer.PushMessages, hbig, UINT_MODULUS,
      UINT8_MODULUS]
  rw [hrun, hadd]
  simp [MessageService.AddMessage, MessageService.create, updateAt,
    MessageConsumer.PushMessage, UINT_MODULUS, UINT8_MODULUS]

/-- Counterexample to C13 as stated, in two states reachable from construction
without any failing shard consumer. In the first, a batch of `2^32 − 1`
messages and one more message have been added: the pending-work counter has
wrapped to 0 while the buffer holds `2^32` entries. In the second, a message
was added and the next tick's reload failed: the counter was reset before the
reload, the exception left `Process`, and the message is still buffered. -/
theorem counter_zero_with_buffered_payloads :
    (((MessageService.create 1 0).run rejectAll
        [Call.AddMessages (List.replicate 4294967295 plainPair),
         Call.AddMessage plainPair]).m_count = 0 ∧
      ((MessageService.create 1 0).run rejectAll
        [Call.AddMessages (List.replicate 4294967295 plainPair),
         Call.AddMessage plainPair]).m_messageHandlers
        = [{ m_messages := List.replicate 4294967295 plainPair ++ [plainPair] }]) ∧
    (((MessageService.create 1 0).run rejectAll
        [Call.AddMessage plainPair, Call.Process (failingTick ReloadTimeout)]).m_count = 0 ∧
      ((MessageService.create 1 0).run rejectAll
        [Call.AddMessage plainPair,
         Call.Process (failingTick ReloadTimeout)]).m_messageHandlers
        = [{ m_messages := [plainPair] }]) :=
  ⟨counter_wraps (List.replicate 4294967295 plainPair) (List.length_replicate _ _) plainPair,
    by decide⟩

end AuthService
